import Mathlib

/-!
Verification of the game engine in cthulhu_game.py ("Don't Mess with Cthulhu").

The Python module is embedded shallowly:

* Mutable objects become immutable values; a method that mutates `self` becomes a
  function returning the updated value.
* A Python method that can raise returns a pair `(state, Option String)`: the
  state component is the object state at the moment the method returns or the
  exception escapes (Python leaves partial mutations in place when an exception
  is raised mid-method), and the second component is `some msg` when an
  exception with that message was raised, `none` on normal return.
* Object identity is replaced by positions: the players of a game are addressed
  by their index in `Game.players`, mirroring how the callers hold references
  into that list.
* Attributes that Python creates only later (deck, discard, round_counter,
  phase, turn, winner) are `Option`-valued; reading such an attribute while it
  is still missing is modelled as an AttributeError result.
* `random.shuffle` is modelled by an explicit oracle function `shuf` supplied to
  the operation; in the transition relations the oracle is constrained to be a
  permutation (`IsShuffler`).  `random.choice` over the active players is an
  explicit oracle index, and the role lookup from roles/role_info.txt (a data
  file external to the engine) is an explicit list of role strings.
* Card display metadata (title/description/symbol) is resolved from the data
  file card_information/card_data.txt, external to the engine; a card's title
  as used by check_winner is identified with its kind, which is exactly what
  the data file provides.  Cards therefore carry their kind and face-up flag.
-/

inductive CardKind
  | Cthulhu
  | ElderSign
  | Blank
deriving DecidableEq, Repr

/-- A card: its kind plus the mutable face-up flag (Card.is_flipped). -/
structure Card where
  kind : CardKind
  is_flipped : Bool
deriving DecidableEq, Repr

/-- Card.flip_up: flip the card face-up (unconditional setter). -/
def Card.flip_up (c : Card) : Card :=
  { c with is_flipped := true }

/-- Card.flip_down: flip the card face-down (unconditional setter). -/
def Card.flip_down (c : Card) : Card :=
  { c with is_flipped := false }

/-- Card(ctype=...): a freshly constructed card is face-down. -/
def mkCard (k : CardKind) : Card :=
  { kind := k, is_flipped := false }

/-- PlayerGameData: per-game state attached to a playing player. -/
structure PlayerGameData where
  role : String
  cards : List Card
  can_claim : Bool
  claim : Option (List Card)
  has_flashlight : Bool
deriving DecidableEq, Repr

inductive PStatus
  | Idle
  | Playing
  | Spectating
deriving DecidableEq, Repr

/-- Player: id, status and optional per-game data (game_data is None until
start_playing runs).  Nickname and statistics are display/persistence
peripherals and carry no game logic. -/
structure Player where
  p_id : Nat
  status : PStatus
  game_data : Option PlayerGameData
deriving DecidableEq, Repr

/-- Player(player_id): a freshly constructed player is Idle with no game data. -/
def Player.mk_new (pid : Nat) : Player :=
  { p_id := pid, status := PStatus.Idle, game_data := none }

/-- Player.start_playing(role): fresh game data, status Playing, can_claim True. -/
def Player.start_playing (p : Player) (role : String) : Player :=
  { p with
    status := PStatus.Playing,
    game_data := some
      { role := role, cards := [], can_claim := true, claim := none,
        has_flashlight := false } }

/-- Player.set_claim(claim): raises unless game_data.can_claim; otherwise stores
the claim and clears can_claim.  Reading can_claim of missing game data is an
AttributeError. -/
def Player.set_claim (p : Player) (claim : List Card) : Player × Option String :=
  match p.game_data with
  | none => (p, some "AttributeError")
  | some d =>
    if ¬ d.can_claim then (p, some "You cannot claim right now.")
    else ({ p with game_data := some { d with claim := some claim, can_claim := false } }, none)

/-- Helper for the no-position branch of reveal_card: flip the first face-down
card in hand order, or report that none remains. -/
def flipFirst : List Card → Option (List Card)
  | [] => none
  | c :: cs =>
    if c.is_flipped then (flipFirst cs).map (fun cs' => c :: cs')
    else some (Card.flip_up c :: cs)

/-- Player.reveal_card(pos=None).  Python's truthiness test `if pos:` selects
the positional branch only for a position that is neither None nor 0; the
positional branch raises "No card to flip!" when the card at that position is
NOT yet flipped (the source's inverted condition) and otherwise performs a
no-op flip_up; the fallback branch flips the first face-down card and raises
"All cards are faceup!" when there is none. -/
def Player.reveal_card (p : Player) (pos : Option Nat) : Player × Option String :=
  match p.game_data with
  | none => (p, some "AttributeError")
  | some d =>
    match pos with
    | some (k + 1) =>
      match d.cards.get? (k + 1) with
      | none => (p, some "IndexError: list index out of range")
      | some c =>
        if ¬ c.is_flipped then (p, some "No card to flip!")
        else ({ p with game_data := some { d with cards := d.cards.set (k + 1) c.flip_up } }, none)
    | _ =>
      match flipFirst d.cards with
      | some cs => ({ p with game_data := some { d with cards := cs } }, none)
      | none => (p, some "All cards are faceup!")

/-- Player.toggle_flashlight: negate has_flashlight (AttributeError without
game data). -/
def Player.toggle_flashlight (p : Player) : Player × Option String :=
  match p.game_data with
  | none => (p, some "AttributeError")
  | some d => ({ p with game_data := some { d with has_flashlight := !d.has_flashlight } }, none)

/-- GameSettings: defaults from the source.  No method of Game ever reads these
fields (in particular create_deck performs no player-count validation). -/
structure GameSettings where
  min_players : Nat := 3
  max_players : Nat := 10
deriving DecidableEq, Repr

inductive GStatus
  | Unstarted
  | Ongoing
  | Ended
deriving DecidableEq, Repr

inductive Phase
  | Claims
  | Investigation
deriving DecidableEq, Repr

/-- The winning team strings "Cultist" / "Investigator". -/
inductive Team
  | Investigator
  | Cultist
deriving DecidableEq, Repr

/-- Game: the orchestrating state machine.  Fields that Python only assigns
later in the object's life are Option-valued (none = attribute not yet set). -/
structure Game where
  players : List Player
  game_status : GStatus
  game_settings : GameSettings := {}
  round_counter : Option Nat := none
  phase : Option Phase := none
  turn : Option Nat := none
  deck : Option (List Card) := none
  discard : Option (List Card) := none
  winner : Option Team := none
deriving DecidableEq, Repr

/-- Game(): a new empty, unstarted game. -/
def Game.init : Game :=
  { players := [], game_status := GStatus.Unstarted }

/-- Whether the player at index i of the list is an active (Playing) player. -/
def isPlayingAt (ps : List Player) (i : Nat) : Bool :=
  ((ps.get? i).map (fun p => p.status == PStatus.Playing)).getD false

/-- Indices of the active players, in seating order, starting the numbering
at k (get_active_players as a list of positions). -/
def activeIdxsAux : Nat → List Player → List Nat
  | _, [] => []
  | i, p :: ps =>
    if p.status == PStatus.Playing then i :: activeIdxsAux (i + 1) ps
    else activeIdxsAux (i + 1) ps

/-- Indices of the active players in Game.players (get_active_players). -/
def activeIdxs (ps : List Player) : List Nat :=
  activeIdxsAux 0 ps

/-- Game.count_active_players. -/
def Game.count_active_players (g : Game) : Nat :=
  g.players.countP (fun p => p.status == PStatus.Playing)

/-- Game.add_player(player, is_playing): the join checks from the source, then
append.  The incoming player is a fresh Player object (the Player constructor
leaves game_data as None); presence is tested by player id, standing in for
Python's object identity. -/
def Game.add_player (g : Game) (pid : Nat) (is_playing : Bool) : Game × Option String :=
  if g.game_status ≠ GStatus.Unstarted ∧ is_playing then
    (g, some "The game has already started.")
  else
    let dup := g.players.find? (fun p => p.p_id == pid)
    if dup.map Player.status = some PStatus.Playing then
      (g, some "You're already in this game.")
    else if dup.map Player.status = some PStatus.Spectating then
      (g, some "You're already spectating this game.")
    else
      let newP : Player :=
        { p_id := pid,
          status := if is_playing then PStatus.Playing else PStatus.Spectating,
          game_data := none }
      ({ g with players := g.players ++ [newP] }, none)

/-- Game.remove_player(player): remove the referenced player (identity-based
list removal, modelled by index); raises if the reference is not in the list. -/
def Game.remove_player (g : Game) (idx : Nat) : Game × Option String :=
  if idx < g.players.length then
    ({ g with players := g.players.eraseIdx idx }, none)
  else
    (g, some "You weren't in the game.")

/-- Game.get_next_player(player): starting after idx, scan forward with
wraparound for the next Playing player.  Python loops forever when no player is
Playing; that case is modelled as none. -/
def Game.get_next_player (g : Game) (idx : Nat) : Option Nat :=
  ((List.range g.players.length).map
      (fun k => (idx + 1 + k) % g.players.length)).find?
    (fun j => isPlayingAt g.players j)

/-- The deck built by create_deck for n active players: one Cthulhu card (a
second one first when n > 8), n Elder Signs, and Blanks up to a total of
n * 5 (Python's range of a negative count is empty, matching Nat subtraction). -/
def mkDeck (n : Nat) : List Card :=
  let d2 := (if n > 8 then [mkCard CardKind.Cthulhu] else []) ++ [mkCard CardKind.Cthulhu]
  let d3 := d2 ++ List.replicate n (mkCard CardKind.ElderSign)
  d3 ++ List.replicate (n * 5 - d3.length) (mkCard CardKind.Blank)

/-- Game.create_deck: build the deck for the current active-player count and
reset the discard pile.  The source performs no validation of the count. -/
def Game.create_deck (g : Game) : Game :=
  { g with deck := some (mkDeck g.count_active_players), discard := some [] }

/-- One pop of deal_cards: remove the last card of the deck (list.pop pops from
the end); popping an empty deck is an IndexError. -/
def popLast : List Card → Option (Card × List Card)
  | [] => none
  | [c] => some (c, [])
  | c :: c' :: cs =>
    match popLast (c' :: cs) with
    | some (top, rest) => some (top, c :: rest)
    | none => none

/-- Append a card to the hand of the player at index i (Player.give_card).
The pop has already happened when give_card runs, so on an AttributeError the
popped card is simply gone, as in the source. -/
def giveCardAt (ps : List Player) (i : Nat) (c : Card) : Option (List Player) :=
  match ps.get? i with
  | none => none
  | some p =>
    match p.game_data with
    | none => none
    | some d => some (ps.set i { p with game_data := some { d with cards := d.cards ++ [c] } })

/-- The inner `for p in self.get_active_players():` loop of deal_cards: one
card popped from the end of the deck per listed player. -/
def dealPass : List Nat → List Player → List Card →
    List Player × List Card × Option String
  | [], ps, deck => (ps, deck, none)
  | i :: rest, ps, deck =>
    match popLast deck with
    | none => (ps, deck, some "IndexError: pop from empty list")
    | some (c, deck') =>
      match giveCardAt ps i c with
      | none => (ps, deck', some "AttributeError")
      | some ps' => dealPass rest ps' deck'

/-- The outer `while len(self.deck) > 0:` loop of deal_cards.  The loop runs
forever when there are cards but no active players; exhausting the fuel in
that situation is reported as a distinguished nontermination result (the fuel
passed by deal_cards is large enough for every terminating run). -/
def dealLoop : Nat → List Nat → List Player → List Card →
    List Player × List Card × Option String
  | 0, _, ps, deck =>
    if deck.isEmpty then (ps, deck, none) else (ps, deck, some "nonterminating")
  | fuel + 1, idxs, ps, deck =>
    if deck.isEmpty then (ps, deck, none)
    else
      match dealPass idxs ps deck with
      | (ps', deck', some e) => (ps', deck', some e)
      | (ps', deck', none) => dealLoop fuel idxs ps' deck'

/-- Game.deal_cards: shuffle the deck (oracle shuf), then deal round-robin to
the active players until the deck is empty.  get_active_players is constant
during the loop, so it is computed once. -/
def Game.deal_cards (g : Game) (shuf : List Card → List Card) : Game × Option String :=
  match g.deck with
  | none => (g, some "AttributeError")
  | some d =>
    let sd := shuf d
    match dealLoop (sd.length + 1) (activeIdxs g.players) g.players sd with
    | (ps, deck', e) => ({ g with players := ps, deck := some deck' }, e)

/-- The `for i, p in enumerate(self.get_active_players()): p.start_playing(roles[i])`
loop of start_game: roles are consumed positionally; running out of roles is an
IndexError that leaves the earlier players already reset. -/
def assignRolesLoop : List Nat → List String → List Player →
    List Player × Option String
  | [], _, ps => (ps, none)
  | _ :: _, [], ps => (ps, some "IndexError: list index out of range")
  | i :: rest, r :: rs, ps =>
    match ps.get? i with
    | none => (ps, some "IndexError")
    | some p => assignRolesLoop rest rs (ps.set i (p.start_playing r))

/-- Toggle the flashlight of the player at index i (start_game's
random.choice(...).toggle_flashlight()). -/
def toggleFlashlightAt (ps : List Player) (i : Nat) : List Player × Option String :=
  match ps.get? i with
  | none => (ps, some "IndexError")
  | some p =>
    match Player.toggle_flashlight p with
    | (p', none) => (ps.set i p', none)
    | (_, some e) => (ps, some e)

/-- Game.start_game: reject a started game, assign roles to the active players
(role list = oracle for the roles/role_info.txt lookup plus random.shuffle of
the role deck), create and deal the deck, give a random active player the
flashlight (flashIdx = oracle for random.choice), then mark the game Ongoing in
Claims phase, round 1, turn 1.  Any exception on the way escapes with all
mutations made so far kept, exactly as in the source. -/
def Game.start_game (g : Game) (roles : List String) (flashIdx : Nat)
    (shuf : List Card → List Card) : Game × Option String :=
  if g.game_status ≠ GStatus.Unstarted then
    (g, some "This game has already been started.")
  else
    match assignRolesLoop (activeIdxs g.players) roles g.players with
    | (ps, some e) => ({ g with players := ps }, some e)
    | (ps, none) =>
      let g2 := Game.create_deck { g with players := ps }
      match Game.deal_cards g2 shuf with
      | (g3, some e) => (g3, some e)
      | (g3, none) =>
        match (activeIdxs g3.players).get? flashIdx with
        | none => (g3, some "IndexError: random.choice from empty sequence")
        | some i =>
          match toggleFlashlightAt g3.players i with
          | (_, some e) => (g3, some e)
          | (ps4, none) =>
            let g4 := { g3 with players := ps4, game_status := GStatus.Ongoing }
            ({ g4 with round_counter := some 1, phase := some Phase.Claims, turn := some 1 }, none)

/-- The hands of the active players, in order (the list comprehension of
check_winner); none when some active player has no game data. -/
def activeHandsOpt (ps : List Player) : Option (List (List Card)) :=
  (activeIdxs ps).mapM
    (fun i => ((ps.get? i).bind Player.game_data).map PlayerGameData.cards)

/-- One step of check_winner's scan over a card: update
(cards_revealed, signs_found, winner). -/
def winScanStep (acc : Nat × Nat × Option Team) (c : Card) : Nat × Nat × Option Team :=
  if c.is_flipped then
    ( acc.1 + 1,
      (if c.kind = CardKind.Cthulhu then acc.2.1
       else if c.kind = CardKind.ElderSign then acc.2.1 + 1
       else acc.2.1),
      (if c.kind = CardKind.Cthulhu then some Team.Cultist else acc.2.2) )
  else acc

/-- Game.check_winner: scan every card of the active hands followed by the
discard; a face-up Cthulhu sets winner to Cultist during the scan; afterwards
the sign threshold sets winner to Investigator, else the exhaustion threshold
sets winner to Cultist, else the scan's winner value stands. -/
def Game.check_winner (g : Game) : Game × Option String :=
  match activeHandsOpt g.players with
  | none => (g, some "AttributeError")
  | some hs =>
    match g.discard with
    | none => (g, some "AttributeError")
    | some dis =>
      let scan := (hs.flatten ++ dis).foldl winScanStep (0, 0, g.winner)
      let w :=
        if scan.2.1 ≥ g.count_active_players then some Team.Investigator
        else if scan.1 ≥ g.count_active_players * 4 then some Team.Cultist
        else scan.2.2
      ({ g with winner := w }, none)

/-- Set can_claim of the player at index j to True
(…game_data.can_claim = True). -/
def setCanClaimAt (ps : List Player) (j : Nat) : List Player × Option String :=
  match ps.get? j with
  | none => (ps, some "IndexError")
  | some p =>
    match p.game_data with
    | none => (ps, some "AttributeError")
    | some d => (ps.set j { p with game_data := some { d with can_claim := true } }, none)

/-- The `for p in self.get_active_players(): p.game_data.can_claim = True`
loop of new_phase. -/
def setCanClaimAllLoop : List Nat → List Player → List Player × Option String
  | [], ps => (ps, none)
  | i :: rest, ps =>
    match setCanClaimAt ps i with
    | (ps', none) => setCanClaimAllLoop rest ps'
    | (ps', some e) => (ps', some e)

/-- Game.new_phase: transition from claims to investigations. -/
def Game.new_phase (g : Game) : Game × Option String :=
  let g1 := { g with phase := some Phase.Investigation, turn := some 1 }
  match setCanClaimAllLoop (activeIdxs g1.players) g1.players with
  | (ps, e) => ({ g1 with players := ps }, e)

/-- The per-player body of new_round's reset loop: face-up cards to the
discard, face-down cards back to the deck (both in hand order), clear the hand,
and set can_claim from has_flashlight. -/
def collectLoop : List Nat → List Player → List Card → List Card →
    List Player × List Card × List Card × Option String
  | [], ps, dk, dc => (ps, dk, dc, none)
  | i :: rest, ps, dk, dc =>
    match ps.get? i with
    | none => (ps, dk, dc, some "IndexError")
    | some p =>
      match p.game_data with
      | none => (ps, dk, dc, some "AttributeError")
      | some d =>
        let flips := d.cards.filter (fun c => c.is_flipped)
        let keeps := d.cards.filter (fun c => !c.is_flipped)
        let d' := { d with cards := ([] : List Card), can_claim := d.has_flashlight }
        let p' := { p with game_data := some d' }
        collectLoop rest (ps.set i p') (dk ++ keeps) (dc ++ flips)

/-- Game.new_round: reset phase and turn, recollect every active player's
cards into deck/discard, then redeal. -/
def Game.new_round (g : Game) (shuf : List Card → List Card) : Game × Option String :=
  let g1 := { g with phase := some Phase.Claims, turn := some 1 }
  match g1.deck, g1.discard with
  | some dk, some dc =>
    match collectLoop (activeIdxs g1.players) g1.players dk dc with
    | (ps, dk', dc', some e) =>
      ({ g1 with players := ps, deck := some dk', discard := some dc' }, some e)
    | (ps, dk', dc', none) =>
      Game.deal_cards { g1 with players := ps, deck := some dk', discard := some dc' } shuf
  | _, _ => (g1, some "AttributeError")

/-- Game.new_turn: check for winners, advance the turn, and roll over into
new_phase or new_round when the turn exceeds the active-player count. -/
def Game.new_turn (g : Game) (shuf : List Card → List Card) : Game × Option String :=
  match Game.check_winner g with
  | (g1, some e) => (g1, some e)
  | (g1, none) =>
    match g1.turn with
    | none => (g1, some "AttributeError")
    | some t =>
      let g2 := { g1 with turn := some (t + 1) }
      if t + 1 > g2.count_active_players then
        match g2.phase with
        | some Phase.Claims => Game.new_phase g2
        | some Phase.Investigation => Game.new_round g2 shuf
        | none => (g2, some "AttributeError")
      else (g2, none)

/-- Game.set_claim(player, blank, elder, cthulhu): build the synthetic claim
cards (blanks, then elder signs, then cthulhus), delegate to Player.set_claim,
and - while in the Claims phase - pass can_claim to the next active player and
advance the turn. -/
def Game.set_claim (g : Game) (idx blank elder cthulhu : Nat)
    (shuf : List Card → List Card) : Game × Option String :=
  let claim := List.replicate blank (mkCard CardKind.Blank)
    ++ List.replicate elder (mkCard CardKind.ElderSign)
    ++ List.replicate cthulhu (mkCard CardKind.Cthulhu)
  match g.players.get? idx with
  | none => (g, some "ValueError")
  | some p =>
    match Player.set_claim p claim with
    | (_, some e) => (g, some e)
    | (p', none) =>
      let g1 := { g with players := g.players.set idx p' }
      match g1.phase with
      | none => (g1, some "AttributeError")
      | some ph =>
        if ph = Phase.Claims then
          match Game.get_next_player g1 idx with
          | none => (g1, some "nonterminating")
          | some j =>
            match setCanClaimAt g1.players j with
            | (ps, some e) => ({ g1 with players := ps }, some e)
            | (ps, none) => Game.new_turn { g1 with players := ps } shuf
        else (g1, none)

/-- Set has_flashlight of the player at index t to True
(target.game_data.has_flashlight = True). -/
def setFlashlightTrueAt (ps : List Player) (t : Nat) : List Player × Option String :=
  match ps.get? t with
  | none => (ps, some "IndexError")
  | some p =>
    match p.game_data with
    | none => (ps, some "AttributeError")
    | some d => (ps.set t { p with game_data := some { d with has_flashlight := true } }, none)

/-- Game.investigate(user, target, pos): require the user's flashlight, clear
it, reveal the target's card, hand the target the flashlight, advance the
turn.  The flashlight is cleared BEFORE reveal_card can fail, and the partially
mutated state survives a failure, as in the source. -/
def Game.investigate (g : Game) (u t : Nat) (pos : Option Nat)
    (shuf : List Card → List Card) : Game × Option String :=
  match g.players.get? u with
  | none => (g, some "ValueError")
  | some pu =>
    match pu.game_data with
    | none => (g, some "AttributeError")
    | some du =>
      if ¬ du.has_flashlight then (g, some "Must have the flashlight to investigate!")
      else
        let pu' := { pu with game_data := some { du with has_flashlight := false } }
        let g1 := { g with players := g.players.set u pu' }
        match g1.players.get? t with
        | none => (g1, some "ValueError")
        | some pt =>
          match Player.reveal_card pt pos with
          | (pt', some e) => ({ g1 with players := g1.players.set t pt' }, some e)
          | (pt', none) =>
            let g2 := { g1 with players := g1.players.set t pt' }
            match setFlashlightTrueAt g2.players t with
            | (ps3, none) => Game.new_turn { g2 with players := ps3 } shuf
            | (ps3, some e) => ({ g2 with players := ps3 }, some e)

/-- Game.end_game: mark the game Ended (statistics updates are peripheral). -/
def Game.end_game (g : Game) : Game :=
  { g with game_status := GStatus.Ended }

/-!  Observations on a game state, used to express the claims. -/

/-- The multiset of card kinds a player contributes to the shared pool: the
kinds of the cards in the hand for an active player, nothing otherwise. -/
def Player.handKinds (p : Player) : Multiset CardKind :=
  if p.status == PStatus.Playing then
    ↑(((p.game_data.map PlayerGameData.cards).getD []).map Card.kind)
  else 0

/-- The combined kind multiset of all active players' hands. -/
def handsMS (ps : List Player) : Multiset CardKind :=
  (ps.map Player.handKinds).sum

/-- The kind multiset of the whole card pool: active hands + deck + discard. -/
def Game.poolMS (g : Game) : Multiset CardKind :=
  handsMS g.players + ↑((g.deck.getD []).map Card.kind)
    + ↑((g.discard.getD []).map Card.kind)

/-- Hand size of the player at index i (0 when absent or without game data). -/
def handLen (ps : List Player) (i : Nat) : Nat :=
  (((ps.get? i).bind Player.game_data).map (fun d => d.cards.length)).getD 0

/-- len(deck) + len(discard) + sum(len(p.hand) for p in active players):
the quantity of the card-count invariant. -/
def Game.cardTotal (g : Game) : Nat :=
  (g.deck.getD []).length + (g.discard.getD []).length
    + ((activeIdxs g.players).map (fun i => handLen g.players i)).sum

/-- Whether the player holds the flashlight (false without game data). -/
def Player.flash (p : Player) : Bool :=
  ((p.game_data.map PlayerGameData.has_flashlight).getD false)

/-- Number of players in the list holding the flashlight. -/
def flashCount (ps : List Player) : Nat :=
  ps.countP Player.flash

/-- Number of ACTIVE players holding the flashlight. -/
def Game.activeFlashCount (g : Game) : Nat :=
  g.players.countP (fun p => p.status == PStatus.Playing && p.flash)

/-!  Transition relations.  A step applies one public Game operation; the
resulting state is the state component of the operation, whether or not the
call raised, because a raised exception leaves the partially mutated object in
place.  The shuffle oracle is constrained to produce permutations, and oracle
indices are constrained exactly as the random sources are (random.choice picks
an element of the active list, a caller passes a player reference that is in
the players list). -/

/-- The shuffle oracle behaves like random.shuffle: a permutation. -/
def IsShuffler (shuf : List Card → List Card) : Prop :=
  ∀ l : List Card, (shuf l).Perm l

/-- One call to a public mutating Game method (full interface, including
remove_player). -/
inductive Step : Game → Game → Prop
  | add_player (g : Game) (pid : Nat) (is_playing : Bool) :
      Step g (Game.add_player g pid is_playing).1
  | remove_player (g : Game) (idx : Nat) (h : idx < g.players.length) :
      Step g (Game.remove_player g idx).1
  | start_game (g : Game) (roles : List String) (flashIdx : Nat)
      (shuf : List Card → List Card) (hs : IsShuffler shuf) :
      Step g (Game.start_game g roles flashIdx shuf).1
  | set_claim (g : Game) (idx blank elder cthulhu : Nat)
      (shuf : List Card → List Card) (hs : IsShuffler shuf)
      (h : idx < g.players.length) :
      Step g (Game.set_claim g idx blank elder cthulhu shuf).1
  | investigate (g : Game) (u t : Nat) (pos : Option Nat)
      (shuf : List Card → List Card) (hs : IsShuffler shuf)
      (hu : u < g.players.length) (ht : t < g.players.length) :
      Step g (Game.investigate g u t pos shuf).1
  | end_game (g : Game) :
      Step g (Game.end_game g)

/-- States reachable from the empty game through the public interface. -/
def Reachable (g : Game) : Prop :=
  Relation.ReflTransGen Step Game.init g

/-- One call to a public mutating Game method other than remove_player. -/
inductive StepNR : Game → Game → Prop
  | add_player (g : Game) (pid : Nat) (is_playing : Bool) :
      StepNR g (Game.add_player g pid is_playing).1
  | set_claim (g : Game) (idx blank elder cthulhu : Nat)
      (shuf : List Card → List Card) (hs : IsShuffler shuf)
      (h : idx < g.players.length) :
      StepNR g (Game.set_claim g idx blank elder cthulhu shuf).1
  | investigate (g : Game) (u t : Nat) (pos : Option Nat)
      (shuf : List Card → List Card) (hs : IsShuffler shuf)
      (hu : u < g.players.length) (ht : t < g.players.length) :
      StepNR g (Game.investigate g u t pos shuf).1
  | end_game (g : Game) :
      StepNR g (Game.end_game g)

/-!  Concrete states: a three-player game played through its first round.
The identity function is a legitimate shuffle oracle, so the deal order is
fully determined: list.pop takes cards from the end of the deck as built by
create_deck. -/

/-- A lobby with three joined players. -/
def exG0 : Game :=
  (Game.add_player
    ((Game.add_player
      ((Game.add_player Game.init 10 true).1) 11 true).1) 12 true).1

/-- The started three-player game: roles dealt from the role table for 3
players, flashlight to active player 0, identity shuffle. -/
def exRoles : List String := ["Investigator", "Investigator", "Cultist"]

def exStart : Game := (Game.start_game exG0 exRoles 0 id).1

/-- The claims phase of round one: each of the three players claims in order. -/
def exClaim1 : Game := (Game.set_claim exStart 0 5 0 0 id).1
def exClaim2 : Game := (Game.set_claim exClaim1 1 5 0 0 id).1
def exClaim3 : Game := (Game.set_claim exClaim2 2 5 0 0 id).1

/-- Three investigations (0 → 1 → 2 → 0 with no position); the third one rolls
the game over into new_round, which recollects and redeals. -/
def exInv1 : Game := (Game.investigate exClaim3 0 1 none id).1
def exInv2 : Game := (Game.investigate exInv1 1 2 none id).1
def exInv3 : Game := (Game.investigate exInv2 2 0 none id).1

/-- Removing player 1 after the redeal: their four-card hand leaves the pool. -/
def exRemoved : Game := (Game.remove_player exInv3 1).1

/-- Alternative round one in which player 1 takes the flashlight at the start,
investigates their own hand twice, and then "reveals" the already face-up card
at position 1: the reveal is a no-op but still advances the turn, so only two
cards are face-up when new_round recollects - 13 cards go back to the deck,
which 3 does not divide, and the redeal dies half way with unequal hands. -/
def exStartB : Game := (Game.start_game exG0 exRoles 1 id).1
def exClaimB1 : Game := (Game.set_claim exStartB 0 5 0 0 id).1
def exClaimB2 : Game := (Game.set_claim exClaimB1 1 5 0 0 id).1
def exClaimB3 : Game := (Game.set_claim exClaimB2 2 5 0 0 id).1
def exInvB1 : Game := (Game.investigate exClaimB3 1 1 none id).1
def exInvB2 : Game := (Game.investigate exInvB1 1 1 none id).1
def exInvB3R : Game × Option String := Game.investigate exInvB2 1 1 (some 1) id

/-!  Validity predicates and observation vectors used by the invariants. -/

/-- Every active player has game data attached. -/
def ActiveData (ps : List Player) : Prop :=
  ∀ i ∈ activeIdxs ps, ((ps.get? i).bind Player.game_data).isSome

instance : DecidablePred ActiveData := fun ps =>
  List.decidableBAll _ (activeIdxs ps)

/-- A well-formed in-play state: deck and discard exist and active players
have game data. -/
def Game.Good (g : Game) : Prop :=
  g.deck.isSome ∧ g.discard.isSome ∧ ActiveData g.players

instance : DecidablePred Game.Good := fun g => by
  unfold Game.Good; infer_instance

/-- The statuses of the players, positionally. -/
def statusVec (ps : List Player) : List PStatus :=
  ps.map Player.status

/-- Which players have game data, positionally. -/
def dataSomeVec (ps : List Player) : List Bool :=
  ps.map (fun p => p.game_data.isSome)

/-- Which players hold the flashlight, positionally. -/
def flashVec (ps : List Player) : List Bool :=
  ps.map Player.flash

/-- Concrete states for the win-evaluation and reveal bugs. -/

def mkHandPlayer (pid : Nat) (cards : List Card) (flash : Bool) : Player :=
  { p_id := pid, status := PStatus.Playing, game_data :=
      some { role := "Investigator", cards := cards, can_claim := true,
             claim := none, has_flashlight := flash } }

/-- A three-player state in which a face-up Cthulhu card and three face-up
Elder Signs coexist: one reveal pass sees both a Cthulhu and
signs_found = active-player count. -/
def exWinGame : Game :=
  { players :=
      [ mkHandPlayer 10 [{ kind := CardKind.Cthulhu, is_flipped := true },
                         { kind := CardKind.ElderSign, is_flipped := true }] true,
        mkHandPlayer 11 [{ kind := CardKind.ElderSign, is_flipped := true }] false,
        mkHandPlayer 12 [{ kind := CardKind.ElderSign, is_flipped := true }] false ],
    game_status := GStatus.Ongoing,
    round_counter := some 1, phase := some Phase.Investigation, turn := some 1,
    deck := some [], discard := some [], winner := none }

/-- A player whose two cards are both face-down. -/
def exHandDown : Player :=
  mkHandPlayer 10 [mkCard CardKind.Blank, mkCard CardKind.Blank] false

/-- A player whose card at position 1 is face-up. -/
def exHandUp : Player :=
  mkHandPlayer 10 [mkCard CardKind.Blank, { kind := CardKind.Blank, is_flipped := true }] false

/-- A lobby of five joined players, with a role table that matches. -/
def exG5 : Game :=
  (Game.add_player ((Game.add_player ((Game.add_player ((Game.add_player ((Game.add_player Game.init 20 true).1) 21 true).1) 22 true).1) 23 true).1) 24 true).1

def exRoles5 : List String :=
  ["Investigator", "Investigator", "Investigator", "Cultist", "Cultist"]

/-- A lobby of only two joined players: a count outside the documented
3..10 range, which create_deck nevertheless accepts. -/
def exG2 : Game :=
  (Game.add_player ((Game.add_player Game.init 30 true).1) 31 true).1

/-- The player observations that card-moving loops leave untouched,
positionally: status, presence of game data, and flashlight possession. -/
def SameShape (ps ps' : List Player) : Prop :=
  statusVec ps' = statusVec ps ∧ dataSomeVec ps' = dataSomeVec ps
    ∧ flashVec ps' = flashVec ps

/-- The player observations preserved even by flashlight-moving operations:
status and presence of game data, positionally. -/
def SameCore (ps ps' : List Player) : Prop :=
  statusVec ps' = statusVec ps ∧ dataSomeVec ps' = dataSomeVec ps

/-- The invariant behind the flashlight-uniqueness claim: before the game
starts nobody holds the flashlight, and afterwards at most one player does. -/
def FlashInv (g : Game) : Prop :=
  (g.game_status = GStatus.Unstarted → flashCount g.players = 0)
    ∧ flashCount g.players ≤ 1

/-- What the card-conservation induction tracks across one operation: the pool
multiset and the active-player count are unchanged, the game remains started,
and the state stays well-formed. -/
def PoolPres (g g' : Game) : Prop :=
  g'.poolMS = g.poolMS
    ∧ g'.count_active_players = g.count_active_players
    ∧ g'.game_status ≠ GStatus.Unstarted
    ∧ g'.Good

/-!  Basic lemmas about the list helpers. -/

theorem popLast_nil : popLast [] = none := rfl

theorem popLast_eq_append : ∀ (l : List Card) (c : Card) (r : List Card),
    popLast l = some (c, r) → l = r ++ [c] := by
  intro l
  induction l with
  | nil => intro c r h; simp [popLast] at h
  | cons a tl ih =>
    intro c r h
    match tl with
    | [] =>
      simp [popLast] at h
      simp [h.1, h.2.symm]
    | b :: tl' =>
      simp only [popLast] at h
      cases hr : popLast (b :: tl') with
      | none => rw [hr] at h; simp at h
      | some pr =>
        rw [hr] at h
        simp at h
        obtain ⟨hc, hrr⟩ := h
        have := ih pr.1 pr.2 (by rw [hr])
        subst hc
        rw [← hrr]
        simp [this]

theorem popLast_ne_none : ∀ (l : List Card), l ≠ [] → (popLast l).isSome := by
  intro l
  induction l with
  | nil => intro h; exact absurd rfl h
  | cons a tl ih =>
    intro _
    match tl with
    | [] => simp [popLast]
    | b :: tl' =>
      have h2 := ih (by simp)
      simp only [popLast]
      cases hr : popLast (b :: tl') with
      | none => rw [hr] at h2; simp at h2
      | some pr => simp

/-- Updating an index with the value it already holds does nothing. -/
theorem set_get_self {α : Type} : ∀ (l : List α) (i : Nat) (a : α),
    l.get? i = some a → l.set i a = l := by
  intro l
  induction l with
  | nil => intro i a h; simp at h
  | cons x tl ih =>
    intro i a h
    cases i with
    | zero =>
      have : x = a := by simpa using h
      simp [this]
    | succ j =>
      have h' : tl.get? j = some a := h
      show x :: tl.set j a = x :: tl
      rw [ih j a h']

/-- Replacing one element of a list changes a commutative-monoid-valued sum by
exchanging the images of the old and new elements. -/
theorem sum_map_set {α M : Type} [AddCommMonoid M] (f : α → M) :
    ∀ (l : List α) (i : Nat) (a b : α), l.get? i = some b →
      ((l.set i a).map f).sum + f b = (l.map f).sum + f a := by
  intro l
  induction l with
  | nil => intro i a b h; simp at h
  | cons x tl ih =>
    intro i a b h
    cases i with
    | zero =>
      have hb : x = b := by simpa using h
      subst hb
      show f a + (tl.map f).sum + f x = f x + (tl.map f).sum + f a
      abel
    | succ j =>
      have h' : tl.get? j = some b := h
      have hih := ih j a b h'
      show f x + ((tl.set j a).map f).sum + f b = f x + (tl.map f).sum + f a
      rw [add_assoc, hih, add_assoc]

/-- Replacing one element of a list changes countP by exchanging the counted
contributions of the old and new elements. -/
theorem countP_set {α : Type} (f : α → Bool) :
    ∀ (l : List α) (i : Nat) (a b : α), l.get? i = some b →
      (l.set i a).countP f + (if f b then 1 else 0)
        = l.countP f + (if f a then 1 else 0) := by
  intro l
  induction l with
  | nil => intro i a b h; simp at h
  | cons x tl ih =>
    intro i a b h
    cases i with
    | zero =>
      have hb : x = b := by simpa using h
      subst hb
      show (a :: tl).countP f + _ = (x :: tl).countP f + _
      simp [List.countP_cons]
      omega
    | succ j =>
      have h' : tl.get? j = some b := h
      have hih := ih j a b h'
      show (x :: tl.set j a).countP f + _ = (x :: tl).countP f + _
      simp only [List.countP_cons]
      omega

/-!  Lemmas about activeIdxs. -/

theorem activeIdxsAux_succ : ∀ (ps : List Player) (k : Nat),
    activeIdxsAux (k + 1) ps = (activeIdxsAux k ps).map Nat.succ := by
  intro ps
  induction ps with
  | nil => intro k; rfl
  | cons p tl ih =>
    intro k
    simp only [activeIdxsAux]
    by_cases h : p.status == PStatus.Playing
    · simp [h, ih (k + 1)]
    · simp [h, ih (k + 1)]

theorem activeIdxs_nil : activeIdxs [] = [] := rfl

theorem activeIdxs_cons (p : Player) (tl : List Player) :
    activeIdxs (p :: tl)
      = if p.status == PStatus.Playing then 0 :: (activeIdxs tl).map Nat.succ
        else (activeIdxs tl).map Nat.succ := by
  by_cases h : p.status == PStatus.Playing
  · simp only [activeIdxs, activeIdxsAux, h, if_true, activeIdxsAux_succ]
  · simp only [activeIdxs, activeIdxsAux, h, if_false, activeIdxsAux_succ]

theorem zero_not_mem_map_succ (l : List Nat) : 0 ∉ l.map Nat.succ := by
  intro h
  rcases List.mem_map.mp h with ⟨a, _, ha⟩
  exact Nat.succ_ne_zero a ha

theorem mem_map_succ (l : List Nat) (j : Nat) : (j + 1) ∈ l.map Nat.succ ↔ j ∈ l := by
  constructor
  · intro h
    rcases List.mem_map.mp h with ⟨a, hmem, ha⟩
    have : a = j := Nat.succ_injective ha
    rwa [this] at hmem
  · intro h
    exact List.mem_map.mpr ⟨j, h, rfl⟩

theorem isPlayingAt_cons_succ (p : Player) (tl : List Player) (j : Nat) :
    isPlayingAt (p :: tl) (j + 1) = isPlayingAt tl j := rfl

theorem mem_activeIdxs : ∀ (ps : List Player) (i : Nat),
    i ∈ activeIdxs ps ↔ isPlayingAt ps i = true := by
  intro ps
  induction ps with
  | nil => intro i; simp [activeIdxs, activeIdxsAux, isPlayingAt]
  | cons p tl ih =>
    intro i
    rw [activeIdxs_cons]
    cases i with
    | zero =>
      by_cases h : p.status == PStatus.Playing
      · simp only [h, if_true]
        simp [isPlayingAt, h]
      · simp only [h, if_false]
        simp only [isPlayingAt]
        simp only [List.get?_cons_zero, Option.map_some, Option.getD_some]
        constructor
        · intro hc; exact absurd hc (zero_not_mem_map_succ _)
        · intro hc; exact absurd hc (by simpa using h)
    | succ j =>
      rw [isPlayingAt_cons_succ, ← ih j]
      by_cases h : p.status == PStatus.Playing
      · simp only [h, if_true, List.mem_cons]
        rw [mem_map_succ]
        constructor
        · intro hc
          rcases hc with hc | hc
          · exact absurd hc (Nat.succ_ne_zero j)
          · exact hc
        · intro hc; exact Or.inr hc
      · simp only [h, if_false]
        exact mem_map_succ _ j

theorem activeIdxs_nodup : ∀ (ps : List Player), (activeIdxs ps).Nodup := by
  intro ps
  induction ps with
  | nil => simp [activeIdxs, activeIdxsAux]
  | cons p tl ih =>
    rw [activeIdxs_cons]
    have hmap : ((activeIdxs tl).map Nat.succ).Nodup :=
      List.Nodup.map (fun a b h => Nat.succ_injective h) ih
    by_cases h : p.status == PStatus.Playing
    · simp only [h, if_true]
      exact List.nodup_cons.mpr ⟨zero_not_mem_map_succ _, hmap⟩
    · simp only [h, if_false]
      exact hmap

theorem isPlayingAt_lt (ps : List Player) (i : Nat) (h : isPlayingAt ps i = true) :
    i < ps.length := by
  by_contra hle
  have hnone : ps.get? i = none := List.get?_eq_none.mpr (by omega)
  unfold isPlayingAt at h
  rw [hnone] at h
  simp at h

theorem activeIdxs_lt (ps : List Player) (i : Nat) (h : i ∈ activeIdxs ps) :
    i < ps.length :=
  isPlayingAt_lt ps i ((mem_activeIdxs ps i).mp h)

theorem activeIdxs_length : ∀ (ps : List Player),
    (activeIdxs ps).length = ps.countP (fun p => p.status == PStatus.Playing) := by
  intro ps
  induction ps with
  | nil => rfl
  | cons p tl ih =>
    simp only [activeIdxs, activeIdxsAux, activeIdxsAux_succ] at ih ⊢
    by_cases h : p.status == PStatus.Playing
    · simp [h, List.countP_cons, ih]
    · simp [h, List.countP_cons, ih]

/-!  Measurement transport along the observation vectors. -/

theorem statusVec_get? (ps : List Player) (i : Nat) :
    (statusVec ps).get? i = (ps.get? i).map Player.status :=
  List.get?_map Player.status ps i

theorem dataSomeVec_get? (ps : List Player) (i : Nat) :
    (dataSomeVec ps).get? i = (ps.get? i).map (fun p => p.game_data.isSome) :=
  List.get?_map _ ps i

theorem flashVec_get? (ps : List Player) (i : Nat) :
    (flashVec ps).get? i = (ps.get? i).map Player.flash :=
  List.get?_map Player.flash ps i

theorem countP_comp_map {α β : Type} (f : β → Bool) (g : α → β) (l : List α) :
    (l.map g).countP f = l.countP (fun a => f (g a)) :=
  List.countP_map f g l

theorem count_active_eq_of_statusVec (ps ps' : List Player)
    (h : statusVec ps = statusVec ps') :
    ps.countP (fun p => p.status == PStatus.Playing)
      = ps'.countP (fun p => p.status == PStatus.Playing) := by
  have h1 := countP_comp_map (fun s => s == PStatus.Playing) Player.status ps
  have h2 := countP_comp_map (fun s => s == PStatus.Playing) Player.status ps'
  unfold statusVec at h
  rw [← h1, ← h2, h]

theorem flashCount_eq_of_flashVec (ps ps' : List Player)
    (h : flashVec ps = flashVec ps') : flashCount ps = flashCount ps' := by
  have h1 := countP_comp_map (fun b => b) Player.flash ps
  have h2 := countP_comp_map (fun b => b) Player.flash ps'
  unfold flashVec at h
  unfold flashCount
  have e1 : ps.countP Player.flash = ps.countP (fun a => Player.flash a) := rfl
  have e2 : ps'.countP Player.flash = ps'.countP (fun a => Player.flash a) := rfl
  rw [e1, e2, ← h1, ← h2, h]

/-- activeIdxs only depends on the statuses. -/
theorem activeIdxs_eq_of_statusVec : ∀ (ps ps' : List Player),
    statusVec ps = statusVec ps' → activeIdxs ps = activeIdxs ps' := by
  have aux : ∀ (ps ps' : List Player) (k : Nat),
      statusVec ps = statusVec ps' → activeIdxsAux k ps = activeIdxsAux k ps' := by
    intro ps
    induction ps with
    | nil =>
      intro ps' k h
      cases ps' with
      | nil => rfl
      | cons q tl' => simp [statusVec] at h
    | cons p tl ih =>
      intro ps' k h
      cases ps' with
      | nil => simp [statusVec] at h
      | cons q tl' =>
        simp [statusVec] at h
        obtain ⟨h1, h2⟩ := h
        simp only [activeIdxsAux, h1]
        by_cases hq : q.status == PStatus.Playing
        · simp [hq, ih tl' (k + 1) h2]
        · simp [hq, ih tl' (k + 1) h2]
  intro ps ps' h
  exact aux ps ps' 0 h

theorem ActiveData_of_vecs (ps ps' : List Player)
    (hst : statusVec ps = statusVec ps') (hds : dataSomeVec ps = dataSomeVec ps')
    (h : ActiveData ps) : ActiveData ps' := by
  intro i hi
  rw [← activeIdxs_eq_of_statusVec ps ps' hst] at hi
  have hx := h i hi
  have g1 := dataSomeVec_get? ps i
  have g2 := dataSomeVec_get? ps' i
  rw [hds] at g1
  rw [g2] at g1
  cases hp : ps.get? i with
  | none => rw [hp] at hx; simp at hx
  | some p =>
    rw [hp] at hx g1
    cases hp' : ps'.get? i with
    | none => rw [hp'] at g1; simp at g1
    | some q =>
      rw [hp'] at g1
      simp at g1 hx ⊢
      cases hq : q.game_data with
      | none => rw [hq] at g1; cases hd : p.game_data with
        | none => rw [hd] at hx; simp at hx
        | some d => rw [hd] at g1; simp at g1
      | some d => simp

/-!  handsMS, handLen and cardTotal. -/

theorem handsMS_nil : handsMS [] = 0 := rfl

theorem handsMS_cons (p : Player) (tl : List Player) :
    handsMS (p :: tl) = p.handKinds + handsMS tl := by
  simp [handsMS]

theorem handsMS_append (ps qs : List Player) :
    handsMS (ps ++ qs) = handsMS ps + handsMS qs := by
  simp [handsMS]

theorem handKinds_card (p : Player) :
    Multiset.card p.handKinds
      = if p.status == PStatus.Playing then
          (p.game_data.map (fun d => d.cards.length)).getD 0
        else 0 := by
  unfold Player.handKinds
  by_cases h : p.status == PStatus.Playing
  · simp only [h, if_true]
    cases hd : p.game_data with
    | none => simp
    | some d => simp
  · simp only [h, if_false]
    rfl

theorem handLen_cons_succ (p : Player) (tl : List Player) (j : Nat) :
    handLen (p :: tl) (j + 1) = handLen tl j := rfl

theorem handLen_cons_zero (p : Player) (tl : List Player) :
    handLen (p :: tl) 0 = (p.game_data.map (fun d => d.cards.length)).getD 0 := rfl

theorem handsMS_card : ∀ (ps : List Player),
    Multiset.card (handsMS ps)
      = ((activeIdxs ps).map (fun i => handLen ps i)).sum := by
  intro ps
  induction ps with
  | nil => rfl
  | cons p tl ih =>
    rw [handsMS_cons, activeIdxs_cons]
    have hcomp : ∀ l : List Nat,
        (l.map Nat.succ).map (fun i => handLen (p :: tl) i)
          = l.map (fun i => handLen tl i) := by
      intro l
      rw [List.map_map]
      apply List.map_congr_left
      intro a _
      exact handLen_cons_succ p tl a
    by_cases h : p.status == PStatus.Playing
    · rw [if_pos h]
      simp only [List.map_cons, List.sum_cons]
      rw [hcomp, Multiset.card_add, handKinds_card, ih]
      simp [h, handLen_cons_zero]
    · rw [if_neg h]
      rw [hcomp, Multiset.card_add, handKinds_card, ih]
      simp [h]

/-!  Observation vectors under a single player update. -/

theorem statusVec_set_same (ps : List Player) (i : Nat) (p p' : Player)
    (hp : ps.get? i = some p) (hf : p'.status = p.status) :
    statusVec (ps.set i p') = statusVec ps := by
  unfold statusVec
  rw [List.map_set]
  apply set_get_self
  rw [List.get?_map, hp]
  simp [hf]

theorem dataSomeVec_set_same (ps : List Player) (i : Nat) (p p' : Player)
    (hp : ps.get? i = some p) (hf : p'.game_data.isSome = p.game_data.isSome) :
    dataSomeVec (ps.set i p') = dataSomeVec ps := by
  unfold dataSomeVec
  rw [List.map_set]
  apply set_get_self
  rw [List.get?_map, hp]
  simp [hf]

theorem flashVec_set_same (ps : List Player) (i : Nat) (p p' : Player)
    (hp : ps.get? i = some p) (hf : p'.flash = p.flash) :
    flashVec (ps.set i p') = flashVec ps := by
  unfold flashVec
  rw [List.map_set]
  apply set_get_self
  rw [List.get?_map, hp]
  simp [hf]

/-- Replacing a player with one holding the same hand kinds preserves handsMS. -/
theorem handsMS_set_same (ps : List Player) (i : Nat) (p p' : Player)
    (hp : ps.get? i = some p) (hf : p'.handKinds = p.handKinds) :
    handsMS (ps.set i p') = handsMS ps := by
  have h := sum_map_set Player.handKinds ps i p' p hp
  unfold handsMS
  rw [hf] at h
  exact add_right_cancel h

/-- Replacing a player moves the difference of hand kinds through handsMS. -/
theorem handsMS_set_exchange (ps : List Player) (i : Nat) (p p' : Player)
    (hp : ps.get? i = some p) :
    handsMS (ps.set i p') + p.handKinds = handsMS ps + p'.handKinds :=
  sum_map_set Player.handKinds ps i p' p hp

theorem handLen_set_ne (ps : List Player) (i j : Nat) (p' : Player) (h : i ≠ j) :
    handLen (ps.set i p') j = handLen ps j := by
  unfold handLen
  rw [List.get?_set_ne _ _ h]

theorem handLen_set_eq (ps : List Player) (i : Nat) (p' : Player)
    (h : i < ps.length) :
    handLen (ps.set i p') i
      = (p'.game_data.map (fun d => d.cards.length)).getD 0 := by
  unfold handLen
  rw [List.get?_set_eq_of_lt _ h]
  rfl

theorem cardTotal_eq (g : Game) : g.cardTotal = Multiset.card g.poolMS := by
  unfold Game.cardTotal Game.poolMS
  rw [Multiset.card_add, Multiset.card_add, handsMS_card]
  simp
  omega

/-!  SameShape: the transport facts shared by all card-moving loops. -/

theorem SameShape_rfl (ps : List Player) : SameShape ps ps :=
  ⟨rfl, rfl, rfl⟩

theorem SameShape_trans {ps ps' ps'' : List Player}
    (h1 : SameShape ps ps') (h2 : SameShape ps' ps'') : SameShape ps ps'' :=
  ⟨h2.1.trans h1.1, h2.2.1.trans h1.2.1, h2.2.2.trans h1.2.2⟩

theorem SameShape_set (ps : List Player) (i : Nat) (p p' : Player)
    (hp : ps.get? i = some p) (hst : p'.status = p.status)
    (hds : p'.game_data.isSome = p.game_data.isSome) (hf : p'.flash = p.flash) :
    SameShape ps (ps.set i p') :=
  ⟨statusVec_set_same ps i p p' hp hst, dataSomeVec_set_same ps i p p' hp hds,
    flashVec_set_same ps i p p' hp hf⟩

theorem SameShape.activeIdxs_eq {ps ps' : List Player} (h : SameShape ps ps') :
    activeIdxs ps' = activeIdxs ps :=
  activeIdxs_eq_of_statusVec ps' ps h.1

theorem SameShape.isPlayingAt_eq {ps ps' : List Player} (h : SameShape ps ps')
    (i : Nat) : isPlayingAt ps' i = isPlayingAt ps i := by
  by_cases hm : isPlayingAt ps i = true
  · have : i ∈ activeIdxs ps := (mem_activeIdxs ps i).mpr hm
    rw [← h.activeIdxs_eq] at this
    rw [(mem_activeIdxs ps' i).mp this, hm]
  · by_cases hm' : isPlayingAt ps' i = true
    · have : i ∈ activeIdxs ps' := (mem_activeIdxs ps' i).mpr hm'
      rw [h.activeIdxs_eq] at this
      exact absurd ((mem_activeIdxs ps i).mp this) hm
    · rw [Bool.eq_false_iff.mpr hm, Bool.eq_false_iff.mpr hm']

theorem SameShape.dataSome_eq {ps ps' : List Player} (h : SameShape ps ps')
    (i : Nat) :
    ((ps'.get? i).bind Player.game_data).isSome
      = ((ps.get? i).bind Player.game_data).isSome := by
  have g1 := dataSomeVec_get? ps i
  have g2 := dataSomeVec_get? ps' i
  rw [h.2.1] at g2
  rw [g1] at g2
  cases hp : ps.get? i with
  | none =>
    rw [hp] at g2
    cases hp' : ps'.get? i with
    | none => rfl
    | some q => rw [hp'] at g2; simp at g2
  | some p =>
    rw [hp] at g2
    cases hp' : ps'.get? i with
    | none => rw [hp'] at g2; simp at g2
    | some q =>
      rw [hp'] at g2
      simp at g2 ⊢
      cases hq : q.game_data with
      | none =>
        rw [hq] at g2
        cases hd : p.game_data with
        | none => simp
        | some d => rw [hd] at g2; simp at g2
      | some dq =>
        rw [hq] at g2
        cases hd : p.game_data with
        | none => rw [hd] at g2; simp at g2
        | some d => simp

theorem SameShape.activeData {ps ps' : List Player} (h : SameShape ps ps')
    (ha : ActiveData ps) : ActiveData ps' := by
  intro i hi
  rw [h.dataSome_eq i]
  exact ha i (by rwa [h.activeIdxs_eq] at hi)

theorem SameShape.count_active {ps ps' : List Player} (h : SameShape ps ps') :
    ps'.countP (fun p => p.status == PStatus.Playing)
      = ps.countP (fun p => p.status == PStatus.Playing) :=
  count_active_eq_of_statusVec ps' ps h.1

theorem SameShape.flashCount_eq {ps ps' : List Player} (h : SameShape ps ps') :
    flashCount ps' = flashCount ps :=
  flashCount_eq_of_flashVec ps' ps h.2.2

/-!  Characterization of the deal loops. -/

theorem handKinds_give (p : Player) (d : PlayerGameData) (c : Card)
    (hst : p.status == PStatus.Playing) (hd : p.game_data = some d) :
    ({ p with game_data := some { d with cards := d.cards ++ [c] } } : Player).handKinds
      = p.handKinds + {c.kind} := by
  unfold Player.handKinds
  simp only [hst, if_true, hd]
  show (↑((d.cards ++ [c]).map Card.kind) : Multiset CardKind)
      = ↑(d.cards.map Card.kind) + {c.kind}
  rw [List.map_append]
  rfl

theorem giveCardAt_eq (ps : List Player) (i : Nat) (c : Card) (p : Player)
    (d : PlayerGameData) (hp : ps.get? i = some p) (hd : p.game_data = some d) :
    giveCardAt ps i c
      = some (ps.set i { p with game_data := some { d with cards := d.cards ++ [c] } }) := by
  simp only [giveCardAt, hp, hd]

theorem giveCardAt_inv (ps : List Player) (i : Nat) (c : Card) (ps' : List Player)
    (h : giveCardAt ps i c = some ps') :
    ∃ p d, ps.get? i = some p ∧ p.game_data = some d
      ∧ ps' = ps.set i { p with game_data := some { d with cards := d.cards ++ [c] } } := by
  cases hp : ps.get? i with
  | none => simp only [giveCardAt, hp] at h; exact absurd h (by simp)
  | some p =>
    cases hd : p.game_data with
    | none => simp only [giveCardAt, hp, hd] at h; exact absurd h (by simp)
    | some d =>
      simp only [giveCardAt, hp, hd, Option.some.injEq] at h
      exact ⟨p, d, rfl, hd, h.symm⟩

/-- Any run of the inner deal pass preserves the shape of the players and -
provided every target is an active player with game data - the total kind
multiset of hands plus deck. -/
theorem dealPass_shape : ∀ (idxs : List Nat) (ps : List Player) (deck : List Card),
    SameShape ps (dealPass idxs ps deck).1
      ∧ ((∀ i ∈ idxs, isPlayingAt ps i = true
            ∧ ((ps.get? i).bind Player.game_data).isSome = true) →
          handsMS (dealPass idxs ps deck).1
              + ↑(((dealPass idxs ps deck).2.1).map Card.kind)
            = handsMS ps + ↑(deck.map Card.kind)) := by
  intro idxs
  induction idxs with
  | nil =>
    intro ps deck
    exact ⟨SameShape_rfl ps, fun _ => rfl⟩
  | cons i rest ih =>
    intro ps deck
    show SameShape ps (dealPass (i :: rest) ps deck).1 ∧ _
    cases hpop : popLast deck with
    | none =>
      simp only [dealPass, hpop]
      exact ⟨SameShape_rfl ps, fun _ => by trivial⟩
    | some pr =>
      obtain ⟨c, deck'⟩ := pr
      have hdeck : deck = deck' ++ [c] := popLast_eq_append deck c deck' hpop
      cases hgive : giveCardAt ps i c with
      | none =>
        simp only [dealPass, hpop, hgive]
        refine ⟨SameShape_rfl ps, fun hvalid => ?_⟩
        obtain ⟨hplay, hdata⟩ := hvalid i (List.mem_cons_self i rest)
        have hip : i < ps.length := isPlayingAt_lt ps i hplay
        have hpsome : ∃ p, ps.get? i = some p := by
          cases hp : ps.get? i with
          | none => exact absurd hp (by simp [List.get?_eq_none]; omega)
          | some p => exact ⟨p, rfl⟩
        obtain ⟨p, hp⟩ := hpsome
        have hdata' : p.game_data.isSome := by
          rw [hp] at hdata; simpa using hdata
        obtain ⟨d, hd⟩ := Option.isSome_iff_exists.mp hdata'
        rw [giveCardAt_eq ps i c p d hp hd] at hgive
        exact absurd hgive (by simp)
      | some psG =>
        obtain ⟨p, d, hp, hd, hpsG⟩ := giveCardAt_inv ps i c psG hgive
        have hstep : dealPass (i :: rest) ps deck = dealPass rest psG deck' := by
          simp only [dealPass, hpop, hgive]
        rw [hstep]
        set p' : Player := { p with game_data := some { d with cards := d.cards ++ [c] } }
          with hpdef
        have hshape1 : SameShape ps psG := by
          rw [hpsG]
          exact SameShape_set ps i p p' hp rfl (by rw [hpdef, hd]; rfl)
            (by rw [hpdef]; unfold Player.flash; rw [hd]; rfl)
        have hrec := ih psG deck'
        refine ⟨SameShape_trans hshape1 hrec.1, fun hvalid => ?_⟩
        obtain ⟨hplay, hdata⟩ := hvalid i (List.mem_cons_self i rest)
        have hstp : p.status == PStatus.Playing := by
          unfold isPlayingAt at hplay
          rw [hp] at hplay
          simpa using hplay
        have hvalid' : ∀ j ∈ rest, isPlayingAt psG j = true
            ∧ ((psG.get? j).bind Player.game_data).isSome = true := by
          intro j hj
          obtain ⟨h1, h2⟩ := hvalid j (List.mem_cons_of_mem i hj)
          exact ⟨by rw [hshape1.isPlayingAt_eq j]; exact h1,
            by rw [hshape1.dataSome_eq j]; exact h2⟩
        have hms1 : handsMS psG = handsMS ps + {c.kind} := by
          have hx := handsMS_set_exchange ps i p p' hp
          rw [hpdef] at hx
          rw [handKinds_give p d c hstp hd] at hx
          rw [hpsG, hpdef]
          have hx' : handsMS (ps.set i p') + p.handKinds
              = handsMS ps + {c.kind} + p.handKinds := by
            rw [hx]; abel
          exact add_right_cancel hx'
        rw [hrec.2 hvalid', hms1, hdeck]
        show handsMS ps + {c.kind} + ↑(deck'.map Card.kind)
          = handsMS ps + ↑((deck' ++ [c]).map Card.kind)
        rw [List.map_append]
        show _ = handsMS ps + (↑(deck'.map Card.kind) + ↑([c.kind] : List CardKind))
        simp
        abel

/-- Validity of deal targets only depends on the shape. -/
theorem valid_of_shape (idxs : List Nat) (ps ps' : List Player)
    (hsh : SameShape ps ps')
    (h : ∀ i ∈ idxs, isPlayingAt ps i = true
      ∧ ((ps.get? i).bind Player.game_data).isSome = true) :
    ∀ i ∈ idxs, isPlayingAt ps' i = true
      ∧ ((ps'.get? i).bind Player.game_data).isSome = true := by
  intro i hi
  obtain ⟨h1, h2⟩ := h i hi
  exact ⟨by rw [hsh.isPlayingAt_eq i]; exact h1, by rw [hsh.dataSome_eq i]; exact h2⟩

/-- Any run of the outer deal loop preserves the shape of the players and -
under validity of the targets - the total kind multiset of hands plus deck. -/
theorem dealLoop_shape : ∀ (fuel : Nat) (idxs : List Nat) (ps : List Player)
    (deck : List Card),
    SameShape ps (dealLoop fuel idxs ps deck).1
      ∧ ((∀ i ∈ idxs, isPlayingAt ps i = true
            ∧ ((ps.get? i).bind Player.game_data).isSome = true) →
          handsMS (dealLoop fuel idxs ps deck).1
              + ↑(((dealLoop fuel idxs ps deck).2.1).map Card.kind)
            = handsMS ps + ↑(deck.map Card.kind)) := by
  intro fuel
  induction fuel with
  | zero =>
    intro idxs ps deck
    by_cases hde : deck.isEmpty = true
    · simp only [dealLoop, hde, if_true]
      exact ⟨SameShape_rfl ps, fun _ => by trivial⟩
    · simp only [dealLoop, hde, Bool.false_eq_true, if_false]
      exact ⟨SameShape_rfl ps, fun _ => by trivial⟩
  | succ fuel ih =>
    intro idxs ps deck
    by_cases hde : deck.isEmpty = true
    · simp only [dealLoop, hde, if_true]
      exact ⟨SameShape_rfl ps, fun _ => by trivial⟩
    · have hpass := dealPass_shape idxs ps deck
      rcases hdp : dealPass idxs ps deck with ⟨ps1, deck1, err⟩
      rw [hdp] at hpass
      cases err with
      | some e =>
        simp only [dealLoop, hde, Bool.false_eq_true, if_false, hdp]
        exact ⟨hpass.1, fun hv => hpass.2 hv⟩
      | none =>
        have hstep : dealLoop (fuel + 1) idxs ps deck = dealLoop fuel idxs ps1 deck1 := by
          simp only [dealLoop, hde, Bool.false_eq_true, if_false, hdp]
        rw [hstep]
        have hrec := ih idxs ps1 deck1
        refine ⟨SameShape_trans hpass.1 hrec.1, fun hv => ?_⟩
        have hv1 := valid_of_shape idxs ps ps1 hpass.1 hv
        rw [hrec.2 hv1]
        exact hpass.2 hv

/-- Game.deal_cards: shape of the players, all fields other than players and
deck, and - with a permutation oracle and valid active players - the pool. -/
theorem deal_cards_shape (g : Game) (shuf : List Card → List Card) :
    SameShape g.players (Game.deal_cards g shuf).1.players
      ∧ (Game.deal_cards g shuf).1.discard = g.discard
      ∧ (Game.deal_cards g shuf).1.game_status = g.game_status
      ∧ (Game.deal_cards g shuf).1.phase = g.phase
      ∧ (Game.deal_cards g shuf).1.turn = g.turn
      ∧ (Game.deal_cards g shuf).1.round_counter = g.round_counter
      ∧ (Game.deal_cards g shuf).1.winner = g.winner
      ∧ (g.deck.isSome → (Game.deal_cards g shuf).1.deck.isSome)
      ∧ (IsShuffler shuf → ActiveData g.players → g.deck.isSome →
          (Game.deal_cards g shuf).1.poolMS = g.poolMS) := by
  cases hdk : g.deck with
  | none =>
    simp only [Game.deal_cards, hdk]
    refine ⟨SameShape_rfl _, by trivial, by trivial, by trivial, by trivial, by trivial,
      by trivial, ?_, ?_⟩
    · intro hsome; exact hsome
    · intro _ _ _; trivial
  | some d =>
    have hloop := dealLoop_shape ((shuf d).length + 1) (activeIdxs g.players)
      g.players (shuf d)
    rcases hdl : dealLoop ((shuf d).length + 1) (activeIdxs g.players) g.players (shuf d)
      with ⟨ps1, deck1, err⟩
    rw [hdl] at hloop
    have hstep : Game.deal_cards g shuf
        = ({ g with players := ps1, deck := some deck1 }, err) := by
      simp only [Game.deal_cards, hdk, hdl]
    rw [hstep]
    refine ⟨hloop.1, rfl, rfl, rfl, rfl, rfl, rfl, fun _ => by simp, ?_⟩
    intro hs hact _
    have hvalid : ∀ i ∈ activeIdxs g.players, isPlayingAt g.players i = true
        ∧ ((g.players.get? i).bind Player.game_data).isSome = true := by
      intro i hi
      exact ⟨(mem_activeIdxs g.players i).mp hi, hact i hi⟩
    have hms := hloop.2 hvalid
    have hperm : (↑((shuf d).map Card.kind) : Multiset CardKind) = ↑(d.map Card.kind) :=
      Multiset.coe_eq_coe.mpr (List.Perm.map Card.kind (hs d))
    show handsMS ps1 + ↑(deck1.map Card.kind) + ↑((g.discard.getD []).map Card.kind)
      = handsMS g.players + ↑((g.deck.getD []).map Card.kind)
        + ↑((g.discard.getD []).map Card.kind)
    rw [hms, hperm, hdk]
    rfl


/-!  Characterization of the recollection and can_claim loops. -/

theorem handKinds_clear (p : Player) (d' : PlayerGameData) (hcards : d'.cards = []) :
    ({ p with game_data := some d' } : Player).handKinds = 0 := by
  unfold Player.handKinds
  by_cases h : p.status == PStatus.Playing
  · simp only [h, if_true]
    simp [hcards]
  · simp [h]

/-- Any run of the recollection loop preserves the shape of the players and -
under validity of the targets - the total kind multiset of hands, deck and
discard. -/
theorem collectLoop_shape : ∀ (idxs : List Nat) (ps : List Player) (dk dc : List Card),
    SameShape ps (collectLoop idxs ps dk dc).1
      ∧ ((∀ i ∈ idxs, isPlayingAt ps i = true
            ∧ ((ps.get? i).bind Player.game_data).isSome = true) →
          handsMS (collectLoop idxs ps dk dc).1
              + ↑(((collectLoop idxs ps dk dc).2.1).map Card.kind)
              + ↑(((collectLoop idxs ps dk dc).2.2.1).map Card.kind)
            = handsMS ps + ↑(dk.map Card.kind) + ↑(dc.map Card.kind)) := by
  intro idxs
  induction idxs with
  | nil =>
    intro ps dk dc
    exact ⟨SameShape_rfl ps, fun _ => rfl⟩
  | cons i rest ih =>
    intro ps dk dc
    cases hp : ps.get? i with
    | none =>
      simp only [collectLoop, hp]
      exact ⟨SameShape_rfl ps, fun _ => by trivial⟩
    | some p =>
      cases hd : p.game_data with
      | none =>
        simp only [collectLoop, hp, hd]
        exact ⟨SameShape_rfl ps, fun _ => by trivial⟩
      | some d =>
        set d' : PlayerGameData := { d with cards := ([] : List Card), can_claim := d.has_flashlight } with hddef
        set p' : Player := { p with game_data := some d' } with hpdef
        have hstep : collectLoop (i :: rest) ps dk dc
            = collectLoop rest (ps.set i p')
                (dk ++ d.cards.filter (fun c => !c.is_flipped))
                (dc ++ d.cards.filter (fun c => c.is_flipped)) := by
          rw [hpdef, hddef]
          simp only [collectLoop, hp, hd]
        rw [hstep]
        have hshape1 : SameShape ps (ps.set i p') :=
          SameShape_set ps i p p' hp rfl (by rw [hpdef, hddef, hd]; rfl)
            (by rw [hpdef, hddef]; unfold Player.flash; rw [hd]; rfl)
        have hrec := ih (ps.set i p')
          (dk ++ d.cards.filter (fun c => !c.is_flipped))
          (dc ++ d.cards.filter (fun c => c.is_flipped))
        refine ⟨SameShape_trans hshape1 hrec.1, fun hvalid => ?_⟩
        obtain ⟨hplay, _⟩ := hvalid i (List.mem_cons_self i rest)
        have hstp : p.status == PStatus.Playing := by
          unfold isPlayingAt at hplay
          rw [hp] at hplay
          simpa using hplay
        have hvalid' := valid_of_shape rest ps (ps.set i p') hshape1
          (fun j hj => hvalid j (List.mem_cons_of_mem i hj))
        rw [hrec.2 hvalid']
        have hpk : p.handKinds = ↑(d.cards.map Card.kind) := by
          unfold Player.handKinds
          simp only [hstp, if_true, hd]
          rfl
        have hms1 : handsMS (ps.set i p') + p.handKinds = handsMS ps := by
          have hx := handsMS_set_exchange ps i p p' hp
          have hclear : p'.handKinds = 0 := by
            rw [hpdef]
            exact handKinds_clear p d' (by rw [hddef])
          rw [hclear] at hx
          simpa using hx
        have hsplit : (↑((d.cards.filter (fun c => c.is_flipped)).map Card.kind)
              : Multiset CardKind)
            + ↑((d.cards.filter (fun c => !c.is_flipped)).map Card.kind)
            = ↑(d.cards.map Card.kind) := by
          have hperm := List.filter_append_perm (fun c => c.is_flipped) d.cards
          have := Multiset.coe_eq_coe.mpr (List.Perm.map Card.kind hperm)
          rw [List.map_append] at this
          rw [← this]
          rfl
        rw [List.map_append, List.map_append]
        show handsMS (ps.set i p')
            + (↑(dk.map Card.kind) + ↑((d.cards.filter (fun c => !c.is_flipped)).map Card.kind))
            + (↑(dc.map Card.kind) + ↑((d.cards.filter (fun c => c.is_flipped)).map Card.kind))
          = handsMS ps + ↑(dk.map Card.kind) + ↑(dc.map Card.kind)
        rw [← hms1, hpk, ← hsplit]
        abel

theorem setCanClaimAt_shape (ps : List Player) (j : Nat) :
    SameShape ps (setCanClaimAt ps j).1
      ∧ handsMS (setCanClaimAt ps j).1 = handsMS ps := by
  cases hp : ps.get? j with
  | none =>
    simp only [setCanClaimAt, hp]
    exact ⟨SameShape_rfl ps, by trivial⟩
  | some p =>
    cases hd : p.game_data with
    | none =>
      simp only [setCanClaimAt, hp, hd]
      exact ⟨SameShape_rfl ps, by trivial⟩
    | some d =>
      have hstep : setCanClaimAt ps j
          = (ps.set j { p with game_data := some { d with can_claim := true } }, none) := by
        simp only [setCanClaimAt, hp, hd]
      rw [hstep]
      set p' : Player := { p with game_data := some { d with can_claim := true } }
        with hpdef
      refine ⟨SameShape_set ps j p p' hp rfl (by rw [hpdef, hd]; rfl)
        (by rw [hpdef]; unfold Player.flash; rw [hd]; rfl), ?_⟩
      apply handsMS_set_same ps j p p' hp
      rw [hpdef]
      unfold Player.handKinds
      rw [hd]
      rfl

theorem setCanClaimAllLoop_shape : ∀ (idxs : List Nat) (ps : List Player),
    SameShape ps (setCanClaimAllLoop idxs ps).1
      ∧ handsMS (setCanClaimAllLoop idxs ps).1 = handsMS ps := by
  intro idxs
  induction idxs with
  | nil => intro ps; exact ⟨SameShape_rfl ps, rfl⟩
  | cons i rest ih =>
    intro ps
    have hat := setCanClaimAt_shape ps i
    rcases hsc : setCanClaimAt ps i with ⟨ps1, err⟩
    rw [hsc] at hat
    cases err with
    | some e =>
      have hstep : setCanClaimAllLoop (i :: rest) ps = (ps1, some e) := by
        simp only [setCanClaimAllLoop, hsc]
      rw [hstep]
      exact hat
    | none =>
      have hstep : setCanClaimAllLoop (i :: rest) ps = setCanClaimAllLoop rest ps1 := by
        simp only [setCanClaimAllLoop, hsc]
      rw [hstep]
      have hrec := ih ps1
      exact ⟨SameShape_trans hat.1 hrec.1, hrec.2.trans hat.2⟩

theorem setFlashlightTrueAt_facts (ps : List Player) (t : Nat) :
    statusVec (setFlashlightTrueAt ps t).1 = statusVec ps
      ∧ dataSomeVec (setFlashlightTrueAt ps t).1 = dataSomeVec ps
      ∧ handsMS (setFlashlightTrueAt ps t).1 = handsMS ps := by
  cases hp : ps.get? t with
  | none =>
    simp only [setFlashlightTrueAt, hp]
    exact ⟨by trivial, by trivial, by trivial⟩
  | some p =>
    cases hd : p.game_data with
    | none =>
      simp only [setFlashlightTrueAt, hp, hd]
      exact ⟨by trivial, by trivial, by trivial⟩
    | some d =>
      have hstep : setFlashlightTrueAt ps t
          = (ps.set t { p with game_data := some { d with has_flashlight := true } }, none) := by
        simp only [setFlashlightTrueAt, hp, hd]
      rw [hstep]
      set p' : Player := { p with game_data := some { d with has_flashlight := true } }
        with hpdef
      refine ⟨statusVec_set_same ps t p p' hp rfl,
        dataSomeVec_set_same ps t p p' hp (by rw [hpdef, hd]; rfl), ?_⟩
      apply handsMS_set_same ps t p p' hp
      rw [hpdef]
      unfold Player.handKinds
      rw [hd]
      rfl

/-!  check_winner touches only the winner field. -/

theorem check_winner_fields (g : Game) :
    (Game.check_winner g).1.players = g.players
      ∧ (Game.check_winner g).1.game_status = g.game_status
      ∧ (Game.check_winner g).1.phase = g.phase
      ∧ (Game.check_winner g).1.turn = g.turn
      ∧ (Game.check_winner g).1.deck = g.deck
      ∧ (Game.check_winner g).1.discard = g.discard
      ∧ (Game.check_winner g).1.round_counter = g.round_counter := by
  cases h1 : activeHandsOpt g.players with
  | none =>
    simp only [Game.check_winner, h1]
    exact ⟨by trivial, by trivial, by trivial, by trivial, by trivial, by trivial, by trivial⟩
  | some hs =>
    cases h2 : g.discard with
    | none =>
      simp only [Game.check_winner, h1, h2]
      exact ⟨by trivial, by trivial, by trivial, by trivial, by trivial, by trivial, by trivial⟩
    | some dis =>
      simp only [Game.check_winner, h1, h2]
      exact ⟨by trivial, by trivial, by trivial, by trivial, by trivial, by trivial, by trivial⟩

/-- Pool facts follow from untouched players, deck and discard. -/
theorem pres_of_fields (g g' : Game) (hpl : g'.players = g.players)
    (hdk : g'.deck = g.deck) (hdc : g'.discard = g.discard) :
    g'.poolMS = g.poolMS
      ∧ g'.count_active_players = g.count_active_players
      ∧ (g.Good → g'.Good) := by
  refine ⟨?_, ?_, ?_⟩
  · unfold Game.poolMS
    rw [hpl, hdk, hdc]
  · unfold Game.count_active_players
    rw [hpl]
  · intro hg
    unfold Game.Good at hg ⊢
    rw [hpl, hdk, hdc]
    exact hg

/-!  reveal_card changes only face-up flags of the hand. -/

theorem flipFirst_facts : ∀ (cards cs : List Card), flipFirst cards = some cs →
    cs.map Card.kind = cards.map Card.kind ∧ cs.length = cards.length := by
  intro cards
  induction cards with
  | nil => intro cs h; simp [flipFirst] at h
  | cons c tl ih =>
    intro cs h
    by_cases hf : c.is_flipped = true
    · simp only [flipFirst, hf, if_true] at h
      cases hrec : flipFirst tl with
      | none => rw [hrec] at h; simp at h
      | some cs' =>
        rw [hrec] at h
        simp at h
        obtain ⟨h1, h2⟩ := ih cs' hrec
        rw [← h]
        simp [h1, h2]
    · simp only [flipFirst, hf, Bool.false_eq_true, if_false, Option.some.injEq] at h
      rw [← h]
      simp [Card.flip_up]

theorem reveal_card_facts (p : Player) (pos : Option Nat) :
    (Player.reveal_card p pos).1.status = p.status
      ∧ (Player.reveal_card p pos).1.game_data.isSome = p.game_data.isSome
      ∧ (Player.reveal_card p pos).1.flash = p.flash
      ∧ (Player.reveal_card p pos).1.handKinds = p.handKinds := by
  cases hd : p.game_data with
  | none =>
    simp only [Player.reveal_card, hd]
    exact ⟨by trivial, by trivial, by trivial, by trivial⟩
  | some d =>
    have main : ∀ (cs : List Card), cs.map Card.kind = d.cards.map Card.kind →
        ({ p with game_data := some { d with cards := cs } } : Player).status = p.status
          ∧ ({ p with game_data := some { d with cards := cs } } : Player).game_data.isSome
              = p.game_data.isSome
          ∧ ({ p with game_data := some { d with cards := cs } } : Player).flash = p.flash
          ∧ ({ p with game_data := some { d with cards := cs } } : Player).handKinds
              = p.handKinds := by
      intro cs hk
      refine ⟨rfl, by rw [hd]; rfl, by unfold Player.flash; rw [hd]; rfl, ?_⟩
      unfold Player.handKinds
      rw [hd]
      by_cases hst : p.status == PStatus.Playing
      · simp only [hst, if_true]
        show (↑(cs.map Card.kind) : Multiset CardKind) = ↑(d.cards.map Card.kind)
        rw [hk]
      · simp only [hst]
        rfl
    match pos with
    | some (k + 1) =>
      cases hc : d.cards.get? (k + 1) with
      | none =>
        simp only [Player.reveal_card, hd, hc]
        exact ⟨by trivial, by trivial, by trivial, by trivial⟩
      | some c =>
        by_cases hf : c.is_flipped = true
        · set pr : Player :=
            { p with game_data := some { d with cards := d.cards.set (k + 1) c.flip_up } }
            with hprdef
          have hstep : Player.reveal_card p (some (k + 1)) = (pr, none) := by
            rw [hprdef]
            simp only [Player.reveal_card, hd, hc, hf]
            simp
          rw [hstep]
          have hkind : (d.cards.set (k + 1) c.flip_up).map Card.kind
              = d.cards.map Card.kind := by
            have hmap : (d.cards.set (k + 1) c.flip_up).map Card.kind
                = (d.cards.map Card.kind).set (k + 1) c.flip_up.kind := List.map_set
            rw [hmap]
            apply set_get_self
            rw [List.get?_map, hc]
            rfl
          show pr.status = p.status ∧ pr.game_data.isSome = (some d).isSome
            ∧ pr.flash = p.flash ∧ pr.handKinds = p.handKinds
          have hm := main (d.cards.set (k + 1) c.flip_up) hkind
          rw [hd] at hm
          rw [hprdef]
          exact hm
        · have hstep : Player.reveal_card p (some (k + 1)) = (p, some "No card to flip!") := by
            simp only [Player.reveal_card, hd, hc, hf]
            simp
          rw [hstep]
          exact ⟨by trivial, by rw [hd], by trivial, by trivial⟩
    | none =>
      cases hff : flipFirst d.cards with
      | none =>
        simp only [Player.reveal_card, hd, hff]
        exact ⟨by trivial, by trivial, by trivial, by trivial⟩
      | some cs =>
        have hstep : Player.reveal_card p none
            = ({ p with game_data := some { d with cards := cs } }, none) := by
          simp only [Player.reveal_card, hd, hff]
        rw [hstep]
        have hm := main cs (flipFirst_facts d.cards cs hff).1
        rw [hd] at hm
        exact hm
    | some 0 =>
      cases hff : flipFirst d.cards with
      | none =>
        simp only [Player.reveal_card, hd, hff]
        exact ⟨by trivial, by trivial, by trivial, by trivial⟩
      | some cs =>
        have hstep : Player.reveal_card p (some 0)
            = ({ p with game_data := some { d with cards := cs } }, none) := by
          simp only [Player.reveal_card, hd, hff]
        rw [hstep]
        have hm := main cs (flipFirst_facts d.cards cs hff).1
        rw [hd] at hm
        exact hm

theorem player_set_claim_facts (p : Player) (claim : List Card) :
    (Player.set_claim p claim).1.status = p.status
      ∧ (Player.set_claim p claim).1.game_data.isSome = p.game_data.isSome
      ∧ (Player.set_claim p claim).1.flash = p.flash
      ∧ (Player.set_claim p claim).1.handKinds = p.handKinds := by
  cases hd : p.game_data with
  | none =>
    simp only [Player.set_claim, hd]
    exact ⟨by trivial, by trivial, by trivial, by trivial⟩
  | some d =>
    by_cases hcc : d.can_claim = true
    · have hstep : Player.set_claim p claim
          = ({ p with game_data := some { d with claim := some claim, can_claim := false } },
            none) := by
        simp only [Player.set_claim, hd]
        rw [if_neg (not_not_intro hcc)]
      rw [hstep]
      refine ⟨rfl, rfl, ?_, ?_⟩
      · show _ = p.flash
        unfold Player.flash
        rw [hd]
        rfl
      · show _ = p.handKinds
        unfold Player.handKinds
        rw [hd]
        rfl
    · have hstep : Player.set_claim p claim = (p, some "You cannot claim right now.") := by
        simp only [Player.set_claim, hd]
        rw [if_pos hcc]
      rw [hstep]
      exact ⟨rfl, by rw [hd], rfl, rfl⟩

/-!  SameCore: transport for operations that move the flashlight. -/

theorem SameShape.core {ps ps' : List Player} (h : SameShape ps ps') :
    SameCore ps ps' :=
  ⟨h.1, h.2.1⟩

theorem SameCore_rfl (ps : List Player) : SameCore ps ps :=
  ⟨rfl, rfl⟩

theorem SameCore_trans {ps ps' ps'' : List Player}
    (h1 : SameCore ps ps') (h2 : SameCore ps' ps'') : SameCore ps ps'' :=
  ⟨h2.1.trans h1.1, h2.2.trans h1.2⟩

theorem SameCore.countActive {ps ps' : List Player} (h : SameCore ps ps') :
    ps'.countP (fun p => p.status == PStatus.Playing)
      = ps.countP (fun p => p.status == PStatus.Playing) :=
  count_active_eq_of_statusVec ps' ps h.1

theorem SameCore.activeDataPres {ps ps' : List Player} (h : SameCore ps ps')
    (ha : ActiveData ps) : ActiveData ps' :=
  ActiveData_of_vecs ps ps' h.1.symm h.2.symm ha

theorem SameCore.dataSomeEq {ps ps' : List Player} (h : SameCore ps ps') (i : Nat) :
    ((ps'.get? i).bind Player.game_data).isSome
      = ((ps.get? i).bind Player.game_data).isSome := by
  have g1 := dataSomeVec_get? ps i
  have g2 := dataSomeVec_get? ps' i
  rw [h.2] at g2
  rw [g1] at g2
  cases hp : ps.get? i with
  | none =>
    rw [hp] at g2
    cases hp' : ps'.get? i with
    | none => rfl
    | some qq => rw [hp'] at g2; simp at g2
  | some p =>
    rw [hp] at g2
    cases hp' : ps'.get? i with
    | none => rw [hp'] at g2; simp at g2
    | some qq =>
      rw [hp'] at g2
      simp at g2 ⊢
      cases hq : qq.game_data with
      | none =>
        rw [hq] at g2
        cases hd : p.game_data with
        | none => simp
        | some d => rw [hd] at g2; simp at g2
      | some dq =>
        rw [hq] at g2
        cases hd : p.game_data with
        | none => rw [hd] at g2; simp at g2
        | some d => simp

/-!  Composite facts for the internal phase/round/turn operations. -/

theorem SameShape_of_eq {ps ps' : List Player} (h : ps' = ps) : SameShape ps ps' := by
  rw [h]
  exact SameShape_rfl ps

theorem new_phase_facts (g : Game) :
    SameShape g.players (Game.new_phase g).1.players
      ∧ (Game.new_phase g).1.poolMS = g.poolMS
      ∧ (Game.new_phase g).1.game_status = g.game_status
      ∧ (Game.new_phase g).1.deck = g.deck
      ∧ (Game.new_phase g).1.discard = g.discard := by
  have hloop := setCanClaimAllLoop_shape (activeIdxs g.players) g.players
  rcases hl : setCanClaimAllLoop (activeIdxs g.players) g.players with ⟨ps1, err⟩
  rw [hl] at hloop
  have hstep : Game.new_phase g
      = ({ g with phase := some Phase.Investigation, turn := some 1, players := ps1 }, err) := by
    simp only [Game.new_phase, hl]
  rw [hstep]
  refine ⟨hloop.1, ?_, rfl, rfl, rfl⟩
  show handsMS ps1 + ↑((g.deck.getD []).map Card.kind) + ↑((g.discard.getD []).map Card.kind)
    = handsMS g.players + ↑((g.deck.getD []).map Card.kind)
      + ↑((g.discard.getD []).map Card.kind)
  rw [hloop.2]

theorem new_round_facts (g : Game) (shuf : List Card → List Card) :
    SameShape g.players (Game.new_round g shuf).1.players
      ∧ (Game.new_round g shuf).1.game_status = g.game_status
      ∧ (g.Good → IsShuffler shuf →
          (Game.new_round g shuf).1.poolMS = g.poolMS ∧ (Game.new_round g shuf).1.Good) := by
  cases hdk : g.deck with
  | none =>
    have hstep : Game.new_round g shuf
        = ({ g with phase := some Phase.Claims, turn := some 1 }, some "AttributeError") := by
      simp only [Game.new_round, hdk]
    rw [hstep]
    refine ⟨SameShape_rfl _, rfl, ?_⟩
    intro hgood _
    exact absurd hgood.1 (by rw [hdk]; simp)
  | some dk =>
    cases hdc : g.discard with
    | none =>
      have hstep : Game.new_round g shuf
          = ({ g with phase := some Phase.Claims, turn := some 1 }, some "AttributeError") := by
        simp only [Game.new_round, hdk, hdc]
      rw [hstep]
      refine ⟨SameShape_rfl _, rfl, ?_⟩
      intro hgood _
      exact absurd hgood.2.1 (by rw [hdc]; simp)
    | some dc =>
      have hcol := collectLoop_shape (activeIdxs g.players) g.players dk dc
      rcases hcl : collectLoop (activeIdxs g.players) g.players dk dc
        with ⟨ps1, dk1, dc1, err⟩
      rw [hcl] at hcol
      cases err with
      | some e =>
        have hstep : Game.new_round g shuf
            = ({ g with phase := some Phase.Claims, turn := some 1, players := ps1, deck := some dk1, discard := some dc1 }, some e) := by
          simp only [Game.new_round, hdk, hdc, hcl]
        rw [hstep]
        refine ⟨hcol.1, rfl, ?_⟩
        intro hgood hs
        have hvalid : ∀ i ∈ activeIdxs g.players, isPlayingAt g.players i = true
            ∧ ((g.players.get? i).bind Player.game_data).isSome = true := by
          intro i hi
          exact ⟨(mem_activeIdxs g.players i).mp hi, hgood.2.2 i hi⟩
        constructor
        · show handsMS ps1 + ↑(dk1.map Card.kind) + ↑(dc1.map Card.kind)
            = handsMS g.players + ↑((g.deck.getD []).map Card.kind)
              + ↑((g.discard.getD []).map Card.kind)
          rw [hcol.2 hvalid, hdk, hdc]
          rfl
        · exact ⟨by simp, by simp, hcol.1.activeData hgood.2.2⟩
      | none =>
        set g2 : Game := { g with phase := some Phase.Claims, turn := some 1, players := ps1, deck := some dk1, discard := some dc1 } with hg2def
        have hstep : Game.new_round g shuf = Game.deal_cards g2 shuf := by
          rw [hg2def]
          simp only [Game.new_round, hdk, hdc, hcl]
        rw [hstep]
        have hdeal := deal_cards_shape g2 shuf
        have hg2players : g2.players = ps1 := by rw [hg2def]
        have hg2deck : g2.deck = some dk1 := by rw [hg2def]
        have hg2discard : g2.discard = some dc1 := by rw [hg2def]
        have hshape : SameShape g.players (Game.deal_cards g2 shuf).1.players := by
          apply SameShape_trans hcol.1
          rw [← hg2players]
          exact hdeal.1
        refine ⟨hshape, by rw [hdeal.2.2.1, hg2def], ?_⟩
        intro hgood hs
        have hvalid : ∀ i ∈ activeIdxs g.players, isPlayingAt g.players i = true
            ∧ ((g.players.get? i).bind Player.game_data).isSome = true := by
          intro i hi
          exact ⟨(mem_activeIdxs g.players i).mp hi, hgood.2.2 i hi⟩
        have hact2 : ActiveData g2.players := by
          rw [hg2players]
          exact hcol.1.activeData hgood.2.2
        have hpool2 : (Game.deal_cards g2 shuf).1.poolMS = g2.poolMS :=
          hdeal.2.2.2.2.2.2.2.2 hs hact2 (by rw [hg2deck]; simp)
        constructor
        · rw [hpool2]
          show handsMS ps1 + ↑(dk1.map Card.kind) + ↑(dc1.map Card.kind)
            = handsMS g.players + ↑((g.deck.getD []).map Card.kind)
              + ↑((g.discard.getD []).map Card.kind)
          rw [hcol.2 hvalid, hdk, hdc]
          rfl
        · refine ⟨hdeal.2.2.2.2.2.2.2.1 (by rw [hg2deck]; simp), ?_, ?_⟩
          · rw [hdeal.2.1, hg2discard]
            simp
          · exact hdeal.1.activeData hact2

theorem new_turn_facts (g : Game) (shuf : List Card → List Card) :
    SameShape g.players (Game.new_turn g shuf).1.players
      ∧ (Game.new_turn g shuf).1.game_status = g.game_status
      ∧ (g.Good → IsShuffler shuf →
          (Game.new_turn g shuf).1.poolMS = g.poolMS ∧ (Game.new_turn g shuf).1.Good) := by
  have hcw := check_winner_fields g
  rcases hc : Game.check_winner g with ⟨g1, err⟩
  rw [hc] at hcw
  have hg1shape : SameShape g.players g1.players := SameShape_of_eq hcw.1
  have hg1pool : g1.poolMS = g.poolMS := by
    unfold Game.poolMS
    rw [hcw.1, hcw.2.2.2.2.1, hcw.2.2.2.2.2.1]
  have hg1good : g.Good → g1.Good := by
    intro hgood
    unfold Game.Good
    rw [hcw.1, hcw.2.2.2.2.1, hcw.2.2.2.2.2.1]
    exact hgood
  cases err with
  | some e =>
    have hstep : Game.new_turn g shuf = (g1, some e) := by
      simp only [Game.new_turn, hc]
    rw [hstep]
    exact ⟨hg1shape, hcw.2.1, fun hgood _ => ⟨hg1pool, hg1good hgood⟩⟩
  | none =>
    cases ht : g1.turn with
    | none =>
      have hstep : Game.new_turn g shuf = (g1, some "AttributeError") := by
        simp only [Game.new_turn, hc, ht]
      rw [hstep]
      exact ⟨hg1shape, hcw.2.1, fun hgood _ => ⟨hg1pool, hg1good hgood⟩⟩
    | some t =>
      set g2 : Game := { g1 with turn := some (t + 1) } with hg2def
      have hg2shape : SameShape g.players g2.players := by
        rw [hg2def]
        exact hg1shape
      have hg2pool : g2.poolMS = g.poolMS := hg1pool
      have hg2good : g.Good → g2.Good := hg1good
      have hg2status : g2.game_status = g.game_status := hcw.2.1
      by_cases hover : t + 1 > g2.count_active_players
      · cases hph : g2.phase with
        | none =>
          have hph' : g1.phase = none := hph
          have hstep : Game.new_turn g shuf = (g2, some "AttributeError") := by
            simp only [Game.new_turn, hc, ht, hg2def]
            rw [← hg2def]
            simp only [if_pos hover, hph']
          rw [hstep]
          exact ⟨hg2shape, hg2status, fun hgood _ => ⟨hg2pool, hg2good hgood⟩⟩
        | some ph =>
          cases ph with
          | Claims =>
            have hph' : g1.phase = some Phase.Claims := hph
            have hstep : Game.new_turn g shuf = Game.new_phase g2 := by
              simp only [Game.new_turn, hc, ht, hg2def]
              rw [← hg2def]
              simp only [if_pos hover, hph']
            rw [hstep]
            have hnp := new_phase_facts g2
            refine ⟨SameShape_trans hg2shape hnp.1, hnp.2.2.1.trans hg2status, ?_⟩
            intro hgood hs
            refine ⟨hnp.2.1.trans hg2pool, ?_⟩
            have hgood2 := hg2good hgood
            exact ⟨by rw [hnp.2.2.2.1]; exact hgood2.1, by rw [hnp.2.2.2.2]; exact hgood2.2.1,
              hnp.1.activeData hgood2.2.2⟩
          | Investigation =>
            have hph' : g1.phase = some Phase.Investigation := hph
            have hstep : Game.new_turn g shuf = Game.new_round g2 shuf := by
              simp only [Game.new_turn, hc, ht, hg2def]
              rw [← hg2def]
              simp only [if_pos hover, hph']
            rw [hstep]
            have hnr := new_round_facts g2 shuf
            refine ⟨SameShape_trans hg2shape hnr.1, hnr.2.1.trans hg2status, ?_⟩
            intro hgood hs
            have hres := hnr.2.2 (hg2good hgood) hs
            exact ⟨hres.1.trans hg2pool, hres.2⟩
      · have hstep : Game.new_turn g shuf = (g2, none) := by
          simp only [Game.new_turn, hc, ht, hg2def]
          rw [← hg2def]
          simp only [if_neg hover]
        rw [hstep]
        exact ⟨hg2shape, hg2status, fun hgood _ => ⟨hg2pool, hg2good hgood⟩⟩

theorem good_players (g : Game) (ps : List Player)
    (h : SameCore g.players ps) (hgood : g.Good) :
    ({ g with players := ps } : Game).Good :=
  ⟨hgood.1, hgood.2.1, SameCore.activeDataPres h hgood.2.2⟩

theorem game_set_claim_facts (g : Game) (idx blank elder cthulhu : Nat)
    (shuf : List Card → List Card) :
    SameShape g.players (Game.set_claim g idx blank elder cthulhu shuf).1.players
      ∧ (Game.set_claim g idx blank elder cthulhu shuf).1.game_status = g.game_status
      ∧ (g.Good → IsShuffler shuf →
          (Game.set_claim g idx blank elder cthulhu shuf).1.poolMS = g.poolMS
            ∧ (Game.set_claim g idx blank elder cthulhu shuf).1.Good) := by
  cases hp : g.players.get? idx with
  | none =>
    have hstep : Game.set_claim g idx blank elder cthulhu shuf = (g, some "ValueError") := by
      simp only [Game.set_claim, hp]
    rw [hstep]
    exact ⟨SameShape_rfl _, rfl, fun hgood _ => ⟨rfl, hgood⟩⟩
  | some p =>
    have hpc := player_set_claim_facts p (List.replicate blank (mkCard CardKind.Blank)
      ++ List.replicate elder (mkCard CardKind.ElderSign)
      ++ List.replicate cthulhu (mkCard CardKind.Cthulhu))
    rcases hsc : Player.set_claim p (List.replicate blank (mkCard CardKind.Blank)
      ++ List.replicate elder (mkCard CardKind.ElderSign)
      ++ List.replicate cthulhu (mkCard CardKind.Cthulhu)) with ⟨p1, perr⟩
    rw [hsc] at hpc
    cases perr with
    | some e =>
      have hstep : Game.set_claim g idx blank elder cthulhu shuf = (g, some e) := by
        simp only [Game.set_claim, hp, hsc]
      rw [hstep]
      exact ⟨SameShape_rfl _, rfl, fun hgood _ => ⟨rfl, hgood⟩⟩
    | none =>
      have hshape1 : SameShape g.players (g.players.set idx p1) :=
        SameShape_set g.players idx p p1 hp hpc.1 hpc.2.1 hpc.2.2.1
      have hms1 : handsMS (g.players.set idx p1) = handsMS g.players :=
        handsMS_set_same g.players idx p p1 hp hpc.2.2.2
      set g1 : Game := { g with players := g.players.set idx p1 } with hg1def
      have hg1pool : g1.poolMS = g.poolMS := by
        rw [hg1def]
        show handsMS (g.players.set idx p1) + _ + _ = _
        rw [hms1]
        rfl
      have hg1good : g.Good → g1.Good := by
        intro hgood
        rw [hg1def]
        exact good_players g _ hshape1.core hgood
      cases hph : g1.phase with
      | none =>
        have hph' : g.phase = none := hph
        have hstep : Game.set_claim g idx blank elder cthulhu shuf
            = (g1, some "AttributeError") := by
          simp only [Game.set_claim, hp, hsc, hg1def]
          rw [← hg1def]
          simp only [hph']
        rw [hstep]
        exact ⟨hshape1, rfl, fun hgood hs => ⟨hg1pool, hg1good hgood⟩⟩
      | some ph =>
        have hph' : g.phase = some ph := hph
        by_cases hphc : ph = Phase.Claims
        · subst hphc
          cases hnext : Game.get_next_player g1 idx with
          | none =>
            have hstep : Game.set_claim g idx blank elder cthulhu shuf
                = (g1, some "nonterminating") := by
              simp only [Game.set_claim, hp, hsc, hg1def]
              rw [← hg1def]
              simp only [hph', hnext]
              simp
            rw [hstep]
            exact ⟨hshape1, rfl, fun hgood hs => ⟨hg1pool, hg1good hgood⟩⟩
          | some j =>
            have hcc := setCanClaimAt_shape g1.players j
            rcases hsj : setCanClaimAt g1.players j with ⟨ps2, err2⟩
            rw [hsj] at hcc
            cases err2 with
            | some e =>
              have hstep : Game.set_claim g idx blank elder cthulhu shuf
                  = ({ g1 with players := ps2 }, some e) := by
                simp only [Game.set_claim, hp, hsc, hg1def]
                rw [← hg1def]
                simp only [hph', hnext, hsj]
                simp
              rw [hstep]
              have hshape2 : SameShape g.players ps2 := by
                apply SameShape_trans hshape1
                have : g1.players = g.players.set idx p1 := by rw [hg1def]
                rw [← this]
                exact hcc.1
              refine ⟨hshape2, rfl, fun hgood hs => ⟨?_, ?_⟩⟩
              · show handsMS ps2 + _ + _ = _
                rw [hcc.2]
                exact hg1pool
              · exact good_players g1 ps2 hcc.1.core (hg1good hgood)
            | none =>
              set g3 : Game := { g1 with players := ps2 } with hg3def
              have hstep : Game.set_claim g idx blank elder cthulhu shuf
                  = Game.new_turn g3 shuf := by
                simp only [Game.set_claim, hp, hsc, hg1def]
                rw [← hg1def]
                simp only [hph', hnext, hsj, hg3def]
                simp
              rw [hstep]
              have hshape3 : SameShape g.players g3.players := by
                apply SameShape_trans hshape1
                have hg1p : g1.players = g.players.set idx p1 := by rw [hg1def]
                rw [hg3def]
                show SameShape (g.players.set idx p1) ps2
                rw [← hg1p]
                exact hcc.1
              have hg3pool : g3.poolMS = g.poolMS := by
                rw [hg3def]
                show handsMS ps2 + _ + _ = _
                rw [hcc.2]
                exact hg1pool
              have hg3good : g.Good → g3.Good := by
                intro hgood
                rw [hg3def]
                exact good_players g1 ps2 hcc.1.core (hg1good hgood)
              have hnt := new_turn_facts g3 shuf
              refine ⟨SameShape_trans hshape3 hnt.1, hnt.2.1, fun hgood hs => ?_⟩
              have hres := hnt.2.2 (hg3good hgood) hs
              exact ⟨hres.1.trans hg3pool, hres.2⟩
        · have hstep : Game.set_claim g idx blank elder cthulhu shuf = (g1, none) := by
            simp only [Game.set_claim, hp, hsc, hg1def]
            rw [← hg1def]
            simp only [hph', if_neg hphc]
          rw [hstep]
          exact ⟨hshape1, rfl, fun hgood hs => ⟨hg1pool, hg1good hgood⟩⟩

theorem setFlashlightTrueAt_flashCount (ps : List Player) (t : Nat) :
    flashCount (setFlashlightTrueAt ps t).1 ≤ flashCount ps + 1 := by
  cases hp : ps.get? t with
  | none =>
    simp only [setFlashlightTrueAt, hp]
    omega
  | some p =>
    cases hd : p.game_data with
    | none =>
      simp only [setFlashlightTrueAt, hp, hd]
      omega
    | some d =>
      have hstep : setFlashlightTrueAt ps t
          = (ps.set t { p with game_data := some { d with has_flashlight := true } }, none) := by
        simp only [setFlashlightTrueAt, hp, hd]
      rw [hstep]
      show flashCount (ps.set t { p with game_data := some { d with has_flashlight := true } })
        ≤ flashCount ps + 1
      have hcs := countP_set Player.flash ps t
        { p with game_data := some { d with has_flashlight := true } } p hp
      have hx : ({ p with game_data := some { d with has_flashlight := true } }
          : Player).flash = true := rfl
      rw [hx] at hcs
      unfold flashCount
      by_cases hpf : p.flash = true
      · simp [hpf] at hcs
        omega
      · simp [hpf] at hcs
        omega

theorem game_investigate_facts (g : Game) (u t : Nat) (pos : Option Nat)
    (shuf : List Card → List Card) :
    SameCore g.players (Game.investigate g u t pos shuf).1.players
      ∧ (Game.investigate g u t pos shuf).1.game_status = g.game_status
      ∧ (flashCount g.players ≤ 1 →
          flashCount (Game.investigate g u t pos shuf).1.players ≤ 1)
      ∧ (g.Good → IsShuffler shuf →
          (Game.investigate g u t pos shuf).1.poolMS = g.poolMS
            ∧ (Game.investigate g u t pos shuf).1.Good) := by
  cases hpu : g.players.get? u with
  | none =>
    have hstep : Game.investigate g u t pos shuf = (g, some "ValueError") := by
      simp only [Game.investigate, hpu]
    rw [hstep]
    exact ⟨SameCore_rfl _, rfl, fun h => h, fun hgood _ => ⟨rfl, hgood⟩⟩
  | some pu =>
    cases hdu : pu.game_data with
    | none =>
      have hstep : Game.investigate g u t pos shuf = (g, some "AttributeError") := by
        simp only [Game.investigate, hpu, hdu]
      rw [hstep]
      exact ⟨SameCore_rfl _, rfl, fun h => h, fun hgood _ => ⟨rfl, hgood⟩⟩
    | some du =>
      by_cases hfl : du.has_flashlight = true
      · have hpuflash : pu.flash = true := by
          unfold Player.flash
          rw [hdu]
          exact hfl
        set pu' : Player := { pu with game_data := some { du with has_flashlight := false } }
          with hpudef
        set ps1 : List Player := g.players.set u pu' with hps1def
        have hcore1 : SameCore g.players ps1 := by
          rw [hps1def]
          exact ⟨statusVec_set_same g.players u pu pu' hpu (by rw [hpudef]),
            dataSomeVec_set_same g.players u pu pu' hpu (by rw [hpudef, hdu]; rfl)⟩
        have hms1 : handsMS ps1 = handsMS g.players := by
          rw [hps1def]
          apply handsMS_set_same g.players u pu pu' hpu
          rw [hpudef]
          unfold Player.handKinds
          rw [hdu]
          rfl
        have hpu'flash : pu'.flash = false := by
          rw [hpudef]
          unfold Player.flash
          rfl
        have hcount1 : flashCount ps1 + 1 = flashCount g.players := by
          have hcs := countP_set Player.flash g.players u pu' pu hpu
          rw [hpuflash, hpu'flash] at hcs
          unfold flashCount
          rw [hps1def]
          simpa using hcs
        cases hpt : ps1.get? t with
        | none =>
          have hstep : Game.investigate g u t pos shuf
              = ({ g with players := ps1 }, some "ValueError") := by
            simp only [Game.investigate, hpu, hdu, if_neg (not_not_intro hfl)]
            rw [← hpudef, ← hps1def, hpt]
          rw [hstep]
          refine ⟨hcore1, rfl, fun h => ?_, fun hgood hs => ⟨?_, ?_⟩⟩
          · show flashCount ps1 ≤ 1
            omega
          · show handsMS ps1 + _ + _ = _
            rw [hms1]
            rfl
          · exact good_players g ps1 hcore1 hgood
        | some pt =>
          have hrv := reveal_card_facts pt pos
          rcases hrc : Player.reveal_card pt pos with ⟨pt', rerr⟩
          rw [hrc] at hrv
          have hcore2 : SameCore ps1 (ps1.set t pt') :=
            ⟨statusVec_set_same ps1 t pt pt' hpt hrv.1,
              dataSomeVec_set_same ps1 t pt pt' hpt hrv.2.1⟩
          have hms2 : handsMS (ps1.set t pt') = handsMS ps1 :=
            handsMS_set_same ps1 t pt pt' hpt hrv.2.2.2
          have hflash2 : flashCount (ps1.set t pt') = flashCount ps1 :=
            flashCount_eq_of_flashVec _ _ (flashVec_set_same ps1 t pt pt' hpt hrv.2.2.1)
          cases rerr with
          | some e =>
            have hstep : Game.investigate g u t pos shuf
                = ({ g with players := ps1.set t pt' }, some e) := by
              simp only [Game.investigate, hpu, hdu, if_neg (not_not_intro hfl)]
              rw [← hpudef, ← hps1def]
              simp only [hpt, hrc]
            rw [hstep]
            refine ⟨SameCore_trans hcore1 hcore2, rfl, fun h => ?_, fun hgood hs => ⟨?_, ?_⟩⟩
            · show flashCount (ps1.set t pt') ≤ 1
              omega
            · show handsMS (ps1.set t pt') + _ + _ = _
              rw [hms2, hms1]
              rfl
            · exact good_players g _ (SameCore_trans hcore1 hcore2) hgood
          | none =>
            have hsf := setFlashlightTrueAt_facts (ps1.set t pt') t
            have hsfc := setFlashlightTrueAt_flashCount (ps1.set t pt') t
            rcases hsfl : setFlashlightTrueAt (ps1.set t pt') t with ⟨ps3, serr⟩
            rw [hsfl] at hsf hsfc
            have hcore3 : SameCore g.players ps3 := by
              apply SameCore_trans (SameCore_trans hcore1 hcore2)
              exact ⟨hsf.1, hsf.2.1⟩
            have hms3 : handsMS ps3 = handsMS g.players := by
              rw [hsf.2.2, hms2, hms1]
            have hflash3 : flashCount g.players ≤ 1 → flashCount ps3 ≤ 1 := by
              intro h
              dsimp only at hsfc
              omega
            cases serr with
            | some e =>
              have hstep : Game.investigate g u t pos shuf
                  = ({ g with players := ps3 }, some e) := by
                simp only [Game.investigate, hpu, hdu, if_neg (not_not_intro hfl)]
                rw [← hpudef, ← hps1def]
                simp only [hpt, hrc, hsfl]
              rw [hstep]
              refine ⟨hcore3, rfl, hflash3, fun hgood hs => ⟨?_, ?_⟩⟩
              · show handsMS ps3 + _ + _ = _
                rw [hms3]
                rfl
              · exact good_players g ps3 hcore3 hgood
            | none =>
              set g3 : Game := { g with players := ps3 } with hg3def
              have hstep : Game.investigate g u t pos shuf = Game.new_turn g3 shuf := by
                simp only [Game.investigate, hpu, hdu, if_neg (not_not_intro hfl)]
                rw [← hpudef, ← hps1def]
                simp only [hpt, hrc, hsfl]
              rw [hstep]
              have hnt := new_turn_facts g3 shuf
              have hg3core : SameCore g.players g3.players := by
                rw [hg3def]
                exact hcore3
              have hg3pool : g3.poolMS = g.poolMS := by
                rw [hg3def]
                show handsMS ps3 + _ + _ = _
                rw [hms3]
                rfl
              have hg3good : g.Good → g3.Good := by
                intro hgood
                rw [hg3def]
                exact good_players g ps3 hcore3 hgood
              refine ⟨SameCore_trans hg3core hnt.1.core, hnt.2.1, ?_, fun hgood hs => ?_⟩
              · intro h
                have hfc3 : flashCount g3.players ≤ 1 := by
                  rw [hg3def]
                  exact hflash3 h
                rw [hnt.1.flashCount_eq]
                exact hfc3
              · have hres := hnt.2.2 (hg3good hgood) hs
                exact ⟨hres.1.trans hg3pool, hres.2⟩
      · have hstep : Game.investigate g u t pos shuf
            = (g, some "Must have the flashlight to investigate!") := by
          simp only [Game.investigate, hpu, hdu, if_pos hfl]
        rw [hstep]
        exact ⟨SameCore_rfl _, rfl, fun h => h, fun hgood _ => ⟨rfl, hgood⟩⟩

/-!  Exactness of the deal: with a deck size divisible by the number of
active players, the round-robin deal finishes the deck, errors never, and
hands out exactly deck/players cards to every target. -/

theorem popLast_length (deck deck' : List Card) (c : Card)
    (h : popLast deck = some (c, deck')) : deck'.length + 1 = deck.length := by
  rw [popLast_eq_append deck c deck' h]
  simp

theorem dealPass_ok : ∀ (idxs : List Nat) (ps : List Player) (deck : List Card),
    idxs.Nodup →
    (∀ i ∈ idxs, isPlayingAt ps i = true
      ∧ ((ps.get? i).bind Player.game_data).isSome = true) →
    idxs.length ≤ deck.length →
    ∃ ps' deck', dealPass idxs ps deck = (ps', deck', none)
      ∧ deck'.length = deck.length - idxs.length
      ∧ (∀ i ∈ idxs, handLen ps' i = handLen ps i + 1)
      ∧ (∀ j, j ∉ idxs → ps'.get? j = ps.get? j) := by
  intro idxs
  induction idxs with
  | nil =>
    intro ps deck _ _ _
    exact ⟨ps, deck, rfl, by simp, by simp, fun j _ => rfl⟩
  | cons i rest ih =>
    intro ps deck hnd hvalid hlen
    obtain ⟨hplay, hdata⟩ := hvalid i (List.mem_cons_self i rest)
    have hip : i < ps.length := isPlayingAt_lt ps i hplay
    have hpsome : ∃ p, ps.get? i = some p := by
      cases hp : ps.get? i with
      | none => exact absurd hp (by simp [List.get?_eq_none]; omega)
      | some p => exact ⟨p, rfl⟩
    obtain ⟨p, hp⟩ := hpsome
    have hdata' : p.game_data.isSome := by
      rw [hp] at hdata
      simpa using hdata
    obtain ⟨d, hd⟩ := Option.isSome_iff_exists.mp hdata'
    have hdeckne : deck ≠ [] := by
      intro hcon
      rw [hcon] at hlen
      simp at hlen
    obtain ⟨pr, hpop⟩ := Option.isSome_iff_exists.mp (popLast_ne_none deck hdeckne)
    obtain ⟨c, deck1⟩ := pr
    have hgive := giveCardAt_eq ps i c p d hp hd
    set p' : Player := { p with game_data := some { d with cards := d.cards ++ [c] } }
      with hpdef
    set psG : List Player := ps.set i p' with hpsGdef
    have hstep : dealPass (i :: rest) ps deck = dealPass rest psG deck1 := by
      simp only [dealPass, hpop, hgive, hpsGdef]
    have hlen1 : deck1.length + 1 = deck.length := popLast_length deck deck1 c hpop
    have hshape1 : SameShape ps psG := by
      rw [hpsGdef]
      exact SameShape_set ps i p p' hp rfl (by rw [hpdef, hd]; rfl)
        (by rw [hpdef]; unfold Player.flash; rw [hd]; rfl)
    have hvalid' : ∀ j ∈ rest, isPlayingAt psG j = true
        ∧ ((psG.get? j).bind Player.game_data).isSome = true :=
      valid_of_shape rest ps psG hshape1 (fun j hj => hvalid j (List.mem_cons_of_mem i hj))
    have hlen' : rest.length ≤ deck1.length := by
      simp at hlen
      omega
    obtain ⟨ps', deck', heq, hdlen, hhand, hout⟩ :=
      ih psG deck1 (List.Nodup.of_cons hnd) hvalid' hlen'
    have hinotrest : i ∉ rest := (List.nodup_cons.mp hnd).1
    refine ⟨ps', deck', by rw [hstep, heq], by simp; omega, ?_, ?_⟩
    · intro j hj
      rcases List.mem_cons.mp hj with hji | hjr
      · subst hji
        have hgout : ps'.get? j = psG.get? j := hout j hinotrest
        have hpsGj : psG.get? j = some p' := by
          rw [hpsGdef]
          exact List.get?_set_eq_of_lt p' hip
        unfold handLen
        rw [hgout, hpsGj, hp]
        simp [hpdef, hd]
      · have hne : i ≠ j := by
          intro hcon
          rw [hcon] at hinotrest
          exact hinotrest hjr
        have h1 := hhand j hjr
        have h2 : handLen psG j = handLen ps j := by
          unfold handLen
          rw [hpsGdef, List.get?_set_ne _ _ hne]
        rw [h1, h2]
    · intro j hj
      have hjni : j ≠ i := fun hcon => hj (by rw [hcon]; exact List.mem_cons_self i rest)
      have hjnr : j ∉ rest := fun hcon => hj (List.mem_cons_of_mem i hcon)
      rw [hout j hjnr, hpsGdef, List.get?_set_ne _ _ (fun hcon => hjni hcon.symm)]

theorem dealLoop_ok : ∀ (k fuel : Nat) (idxs : List Nat) (ps : List Player)
    (deck : List Card),
    idxs ≠ [] → idxs.Nodup →
    (∀ i ∈ idxs, isPlayingAt ps i = true
      ∧ ((ps.get? i).bind Player.game_data).isSome = true) →
    deck.length = idxs.length * k → k < fuel →
    ∃ ps', dealLoop fuel idxs ps deck = (ps', [], none)
      ∧ (∀ i ∈ idxs, handLen ps' i = handLen ps i + k)
      ∧ (∀ j, j ∉ idxs → ps'.get? j = ps.get? j) := by
  intro k
  induction k with
  | zero =>
    intro fuel idxs ps deck hne hnd hvalid hlen hfuel
    have hdeck : deck = [] := by
      rw [Nat.mul_zero] at hlen
      exact List.length_eq_zero.mp hlen
    subst hdeck
    obtain ⟨f, hf⟩ : ∃ f, fuel = f + 1 := ⟨fuel - 1, by omega⟩
    subst hf
    exact ⟨ps, by simp [dealLoop], by simp, fun j _ => rfl⟩
  | succ k ihk =>
    intro fuel idxs ps deck hne hnd hvalid hlen hfuel
    have hlenpos : 1 ≤ idxs.length := by
      cases idxs with
      | nil => exact absurd rfl hne
      | cons a l => simp
    have hdlen : idxs.length ≤ deck.length := by
      rw [hlen]
      calc idxs.length = idxs.length * 1 := by omega
        _ ≤ idxs.length * (k + 1) := by
            apply Nat.mul_le_mul_left
            omega
    obtain ⟨ps1, deck1, hpass, hd1len, hhand1, hout1⟩ :=
      dealPass_ok idxs ps deck hnd hvalid hdlen
    have hshape1 : SameShape ps ps1 := by
      have h := (dealPass_shape idxs ps deck).1
      rw [hpass] at h
      exact h
    obtain ⟨f, hf⟩ : ∃ f, fuel = f + 1 := ⟨fuel - 1, by omega⟩
    subst hf
    have hdeckne : ¬ deck.isEmpty = true := by
      intro hcon
      rw [List.isEmpty_iff] at hcon
      subst hcon
      have hle : idxs.length ≤ 0 := by simpa using hdlen
      omega
    have hstep : dealLoop (f + 1) idxs ps deck = dealLoop f idxs ps1 deck1 := by
      simp only [dealLoop, hdeckne, Bool.false_eq_true, if_false, hpass]
    have hvalid1 := valid_of_shape idxs ps ps1 hshape1 hvalid
    have hlen1 : deck1.length = idxs.length * k := by
      rw [hd1len, hlen]
      have : idxs.length * (k + 1) = idxs.length * k + idxs.length := by ring
      omega
    obtain ⟨ps', hloop, hhand, hout⟩ := ihk f idxs ps1 deck1 hne hnd hvalid1 hlen1 (by omega)
    refine ⟨ps', by rw [hstep, hloop], ?_, ?_⟩
    · intro i hi
      rw [hhand i hi, hhand1 i hi]
      omega
    · intro j hj
      rw [hout j hj, hout1 j hj]

/-!  Role assignment, flashlight toggle, roster changes. -/

theorem isPlayingAt_of_statusVec (ps ps' : List Player)
    (h : statusVec ps = statusVec ps') (i : Nat) :
    isPlayingAt ps i = isPlayingAt ps' i := by
  unfold isPlayingAt
  have h1 := statusVec_get? ps i
  have h2 := statusVec_get? ps' i
  rw [h, h2] at h1
  cases hp : ps.get? i with
  | none =>
    rw [hp] at h1
    cases hp' : ps'.get? i with
    | none => rfl
    | some q => rw [hp'] at h1; simp at h1
  | some p =>
    rw [hp] at h1
    cases hp' : ps'.get? i with
    | none => rw [hp'] at h1; simp at h1
    | some q =>
      rw [hp'] at h1
      simp at h1
      simp [h1]

theorem status_playing_of_isPlayingAt (ps : List Player) (i : Nat) (p : Player)
    (hp : ps.get? i = some p) (h : isPlayingAt ps i = true) :
    p.status = PStatus.Playing := by
  unfold isPlayingAt at h
  rw [hp] at h
  simpa using h

theorem assignRolesLoop_ok : ∀ (idxs : List Nat) (roles : List String) (ps : List Player),
    idxs.Nodup →
    (∀ i ∈ idxs, isPlayingAt ps i = true) →
    idxs.length ≤ roles.length →
    ∃ ps', assignRolesLoop idxs roles ps = (ps', none)
      ∧ statusVec ps' = statusVec ps
      ∧ (∀ j, j ∉ idxs → ps'.get? j = ps.get? j)
      ∧ (∀ i ∈ idxs, ∃ p r, ps.get? i = some p
          ∧ ps'.get? i = some (p.start_playing r)) := by
  intro idxs
  induction idxs with
  | nil =>
    intro roles ps _ _ _
    exact ⟨ps, rfl, rfl, fun j _ => rfl, by simp⟩
  | cons i rest ih =>
    intro roles ps hnd hvalid hlen
    cases roles with
    | nil => simp at hlen
    | cons r rs =>
      have hplay := hvalid i (List.mem_cons_self i rest)
      have hip : i < ps.length := isPlayingAt_lt ps i hplay
      have hpsome : ∃ p, ps.get? i = some p := by
        cases hp : ps.get? i with
        | none => exact absurd hp (by simp [List.get?_eq_none]; omega)
        | some p => exact ⟨p, rfl⟩
      obtain ⟨p, hp⟩ := hpsome
      have hpst : p.status = PStatus.Playing := status_playing_of_isPlayingAt ps i p hp hplay
      set ps1 : List Player := ps.set i (p.start_playing r) with hps1def
      have hstep : assignRolesLoop (i :: rest) (r :: rs) ps = assignRolesLoop rest rs ps1 := by
        simp only [assignRolesLoop, hp, hps1def]
      have hsv1 : statusVec ps1 = statusVec ps := by
        rw [hps1def]
        apply statusVec_set_same ps i p _ hp
        show PStatus.Playing = p.status
        rw [hpst]
      have hvalid1 : ∀ j ∈ rest, isPlayingAt ps1 j = true := by
        intro j hj
        rw [← isPlayingAt_of_statusVec ps ps1 hsv1.symm j]
        exact hvalid j (List.mem_cons_of_mem i hj)
      have hinotrest : i ∉ rest := (List.nodup_cons.mp hnd).1
      obtain ⟨ps', heq, hsv, hout, hassigned⟩ :=
        ih rs ps1 (List.Nodup.of_cons hnd) hvalid1 (by simp at hlen; omega)
      refine ⟨ps', by rw [hstep, heq], hsv.trans hsv1, ?_, ?_⟩
      · intro j hj
        have hjni : j ≠ i := fun hcon => hj (by rw [hcon]; exact List.mem_cons_self i rest)
        have hjnr : j ∉ rest := fun hcon => hj (List.mem_cons_of_mem i hcon)
        rw [hout j hjnr, hps1def, List.get?_set_ne _ _ (fun hcon => hjni hcon.symm)]
      · intro j hj
        rcases List.mem_cons.mp hj with hji | hjr
        · subst hji
          refine ⟨p, r, hp, ?_⟩
          rw [hout j hinotrest, hps1def]
          exact List.get?_set_eq_of_lt _ hip
        · obtain ⟨q, r', hq, hq'⟩ := hassigned j hjr
          have hne : i ≠ j := by
            intro hcon
            rw [hcon] at hinotrest
            exact hinotrest hjr
          rw [hps1def, List.get?_set_ne _ _ hne] at hq
          exact ⟨q, r', hq, hq'⟩

theorem assignRolesLoop_flash_le : ∀ (idxs : List Nat) (roles : List String)
    (ps : List Player),
    flashCount (assignRolesLoop idxs roles ps).1 ≤ flashCount ps := by
  intro idxs
  induction idxs with
  | nil => intro roles ps; exact Nat.le_refl _
  | cons i rest ih =>
    intro roles ps
    cases roles with
    | nil =>
      simp only [assignRolesLoop]
      exact Nat.le_refl _
    | cons r rs =>
      cases hp : ps.get? i with
      | none =>
        simp only [assignRolesLoop, hp]
        exact Nat.le_refl _
      | some p =>
        have hstep : assignRolesLoop (i :: rest) (r :: rs) ps
            = assignRolesLoop rest rs (ps.set i (p.start_playing r)) := by
          simp only [assignRolesLoop, hp]
        rw [hstep]
        have hfl : (p.start_playing r).flash = false := rfl
        have hcs := countP_set Player.flash ps i (p.start_playing r) p hp
        rw [hfl] at hcs
        have hle := ih rs (ps.set i (p.start_playing r))
        unfold flashCount at *
        by_cases hpf : p.flash = true
        · simp [hpf] at hcs
          omega
        · simp [hpf] at hcs
          omega

theorem toggleFlashlightAt_flashCount (ps : List Player) (i : Nat) :
    flashCount (toggleFlashlightAt ps i).1 ≤ flashCount ps + 1 := by
  cases hp : ps.get? i with
  | none =>
    simp only [toggleFlashlightAt, hp]
    omega
  | some p =>
    cases hd : p.game_data with
    | none =>
      simp only [toggleFlashlightAt, Player.toggle_flashlight, hp, hd]
      omega
    | some d =>
      have hstep : toggleFlashlightAt ps i
          = (ps.set i { p with game_data := some { d with has_flashlight := !d.has_flashlight } }, none) := by
        simp only [toggleFlashlightAt, Player.toggle_flashlight, hp, hd]
      rw [hstep]
      show flashCount (ps.set i { p with game_data := some { d with has_flashlight := !d.has_flashlight } })
        ≤ flashCount ps + 1
      have hcs := countP_set Player.flash ps i
        { p with game_data := some { d with has_flashlight := !d.has_flashlight } } p hp
      have hpflash : p.flash = d.has_flashlight := by
        unfold Player.flash
        rw [hd]
        rfl
      have hxflash : ({ p with game_data := some { d with has_flashlight := !d.has_flashlight } } : Player).flash = !d.has_flashlight := rfl
      rw [hpflash, hxflash] at hcs
      unfold flashCount
      by_cases hdf : d.has_flashlight = true
      · have h1 : (if d.has_flashlight = true then 1 else 0) = 1 := by simp [hdf]
        have h2 : (if (!d.has_flashlight) = true then 1 else 0) = 0 := by simp [hdf]
        rw [h1, h2] at hcs
        omega
      · have h1 : (if d.has_flashlight = true then 1 else 0) = 0 := by simp [hdf]
        have h2 : (if (!d.has_flashlight) = true then 1 else 0) = 1 := by simp [hdf]
        rw [h1, h2] at hcs
        omega

theorem toggleFlashlightAt_facts (ps : List Player) (i : Nat) :
    statusVec (toggleFlashlightAt ps i).1 = statusVec ps
      ∧ dataSomeVec (toggleFlashlightAt ps i).1 = dataSomeVec ps
      ∧ handsMS (toggleFlashlightAt ps i).1 = handsMS ps := by
  cases hp : ps.get? i with
  | none =>
    simp only [toggleFlashlightAt, hp]
    exact ⟨by trivial, by trivial, by trivial⟩
  | some p =>
    cases hd : p.game_data with
    | none =>
      simp only [toggleFlashlightAt, Player.toggle_flashlight, hp, hd]
      exact ⟨by trivial, by trivial, by trivial⟩
    | some d =>
      have hstep : toggleFlashlightAt ps i
          = (ps.set i { p with game_data := some { d with has_flashlight := !d.has_flashlight } }, none) := by
        simp only [toggleFlashlightAt, Player.toggle_flashlight, hp, hd]
      rw [hstep]
      refine ⟨statusVec_set_same ps i p _ hp rfl,
        dataSomeVec_set_same ps i p _ hp (by rw [hd]; rfl), ?_⟩
      apply handsMS_set_same ps i p _ hp
      unfold Player.handKinds
      rw [hd]
      rfl

theorem mkDeck_length (n : Nat) (h : 1 ≤ n) : (mkDeck n).length = n * 5 := by
  unfold mkDeck
  by_cases h8 : n > 8
  · simp [h8]
    omega
  · simp [h8]
    omega

/-!  Roster operations. -/

theorem activeIdxs_append_nonplaying : ∀ (ps : List Player) (p : Player),
    ¬ (p.status == PStatus.Playing) = true →
    activeIdxs (ps ++ [p]) = activeIdxs ps := by
  intro ps
  induction ps with
  | nil =>
    intro p hnp
    show activeIdxs [p] = activeIdxs []
    rw [activeIdxs_cons, if_neg hnp]
    rfl
  | cons q tl ih =>
    intro p hnp
    show activeIdxs (q :: (tl ++ [p])) = activeIdxs (q :: tl)
    rw [activeIdxs_cons, activeIdxs_cons, ih p hnp]

theorem countP_eraseIdx_le {α : Type} (f : α → Bool) :
    ∀ (l : List α) (i : Nat), (l.eraseIdx i).countP f ≤ l.countP f := by
  intro l
  induction l with
  | nil => intro i; simp [List.eraseIdx]
  | cons a tl ih =>
    intro i
    cases i with
    | zero =>
      show tl.countP f ≤ (a :: tl).countP f
      rw [List.countP_cons]
      omega
    | succ j =>
      show (a :: tl.eraseIdx j).countP f ≤ (a :: tl).countP f
      rw [List.countP_cons, List.countP_cons]
      have := ih j
      omega

theorem game_add_player_facts (g : Game) (pid : Nat) (is_playing : Bool) :
    (Game.add_player g pid is_playing).1.game_status = g.game_status
      ∧ flashCount (Game.add_player g pid is_playing).1.players = flashCount g.players
      ∧ (g.game_status ≠ GStatus.Unstarted →
          (Game.add_player g pid is_playing).1.poolMS = g.poolMS
            ∧ (Game.add_player g pid is_playing).1.count_active_players
                = g.count_active_players
            ∧ (g.Good → (Game.add_player g pid is_playing).1.Good)) := by
  unfold Game.add_player
  by_cases hblock : g.game_status ≠ GStatus.Unstarted ∧ is_playing = true
  · rw [if_pos hblock]
    exact ⟨rfl, rfl, fun _ => ⟨rfl, rfl, fun h => h⟩⟩
  · rw [if_neg hblock]
    set dup := g.players.find? (fun p => p.p_id == pid) with hdup
    by_cases h1 : dup.map Player.status = some PStatus.Playing
    · rw [if_pos h1]
      exact ⟨rfl, rfl, fun _ => ⟨rfl, rfl, fun h => h⟩⟩
    · rw [if_neg h1]
      by_cases h2 : dup.map Player.status = some PStatus.Spectating
      · rw [if_pos h2]
        exact ⟨rfl, rfl, fun _ => ⟨rfl, rfl, fun h => h⟩⟩
      · rw [if_neg h2]
        set newP : Player := { p_id := pid, status := if is_playing = true then PStatus.Playing else PStatus.Spectating, game_data := none } with hnewP
        refine ⟨rfl, ?_, ?_⟩
        · show flashCount (g.players ++ [newP]) = flashCount g.players
          unfold flashCount
          rw [List.countP_append]
          have : [newP].countP Player.flash = 0 := by
            rw [hnewP]
            simp [List.countP_cons]
            unfold Player.flash
            simp
          rw [this]
          omega
        · intro hstat
          have hspec : ¬ (newP.status == PStatus.Playing) = true := by
            rw [hnewP]
            have hnp : is_playing = false := by
              by_cases hip : is_playing = true
              · exact absurd ⟨hstat, hip⟩ hblock
              · simpa using hip
            simp [hnp]
          refine ⟨?_, ?_, ?_⟩
          · show handsMS (g.players ++ [newP]) + _ + _ = _
            rw [handsMS_append]
            have : newP.handKinds = 0 := by
              unfold Player.handKinds
              rw [if_neg hspec]
            rw [handsMS_cons, this, handsMS_nil]
            simp
            rfl
          · show (g.players ++ [newP]).countP _ = _
            rw [List.countP_append]
            have : [newP].countP (fun p => p.status == PStatus.Playing) = 0 := by
              simp [List.countP_cons]
              simpa using hspec
            rw [this]
            unfold Game.count_active_players
            omega
          · intro hgood
            refine ⟨hgood.1, hgood.2.1, ?_⟩
            show ActiveData (g.players ++ [newP])
            intro i hi
            rw [activeIdxs_append_nonplaying g.players newP hspec] at hi
            have hlt := activeIdxs_lt g.players i hi
            rw [List.get?_append hlt]
            exact hgood.2.2 i hi

theorem game_remove_player_facts (g : Game) (idx : Nat) :
    (Game.remove_player g idx).1.game_status = g.game_status
      ∧ flashCount (Game.remove_player g idx).1.players ≤ flashCount g.players := by
  unfold Game.remove_player
  by_cases h : idx < g.players.length
  · rw [if_pos h]
    exact ⟨rfl, countP_eraseIdx_le Player.flash g.players idx⟩
  · rw [if_neg h]
    exact ⟨rfl, Nat.le_refl _⟩

/-!  Successful start_game: with a clean lobby, enough roles, and valid
oracles, the game starts, the full 5-cards-per-player deck is dealt out
evenly, and the state is well-formed. -/

theorem handsMS_zero_of_empty_hands (ps : List Player)
    (h : ∀ i ∈ activeIdxs ps, handLen ps i = 0) : handsMS ps = 0 := by
  have hcard : Multiset.card (handsMS ps) = 0 := by
    rw [handsMS_card]
    apply List.sum_eq_zero
    intro x hx
    rcases List.mem_map.mp hx with ⟨i, hi, hxi⟩
    rw [← hxi]
    exact h i hi
  exact Multiset.card_eq_zero.mp hcard

theorem start_game_ok (g : Game) (roles : List String) (fi : Nat)
    (shuf : List Card → List Card)
    (hst : g.game_status = GStatus.Unstarted)
    (hs : IsShuffler shuf)
    (hn : 1 ≤ g.count_active_players)
    (hroles : g.count_active_players ≤ roles.length)
    (hfi : fi < g.count_active_players) :
    (Game.start_game g roles fi shuf).2 = none
      ∧ (Game.start_game g roles fi shuf).1.game_status = GStatus.Ongoing
      ∧ (Game.start_game g roles fi shuf).1.count_active_players = g.count_active_players
      ∧ (Game.start_game g roles fi shuf).1.Good
      ∧ (Game.start_game g roles fi shuf).1.poolMS
          = ↑((mkDeck g.count_active_players).map Card.kind)
      ∧ (Game.start_game g roles fi shuf).1.deck = some []
      ∧ (Game.start_game g roles fi shuf).1.discard = some []
      ∧ (∀ i ∈ activeIdxs (Game.start_game g roles fi shuf).1.players,
          handLen (Game.start_game g roles fi shuf).1.players i = 5)
      ∧ (Game.start_game g roles fi shuf).1.phase = some Phase.Claims
      ∧ (Game.start_game g roles fi shuf).1.turn = some 1 := by
  have hidxlen : (activeIdxs g.players).length = g.count_active_players :=
    activeIdxs_length g.players
  have hplayall : ∀ i ∈ activeIdxs g.players, isPlayingAt g.players i = true :=
    fun i hi => (mem_activeIdxs g.players i).mp hi
  obtain ⟨ps1, hloop1, hsv1, hout1, hassigned⟩ :=
    assignRolesLoop_ok (activeIdxs g.players) roles g.players
      (activeIdxs_nodup g.players) hplayall (by omega)
  have hAI1 : activeIdxs ps1 = activeIdxs g.players :=
    activeIdxs_eq_of_statusVec ps1 g.players hsv1
  have hcnt1 : ps1.countP (fun p => p.status == PStatus.Playing) = g.count_active_players :=
    count_active_eq_of_statusVec ps1 g.players hsv1
  have hassigned' : ∀ i ∈ activeIdxs g.players,
      ((ps1.get? i).bind Player.game_data).isSome = true ∧ handLen ps1 i = 0 := by
    intro i hi
    obtain ⟨p, r, _, hp'⟩ := hassigned i hi
    constructor
    · rw [hp']
      unfold Player.start_playing
      simp
    · unfold handLen
      rw [hp']
      unfold Player.start_playing
      simp
  set n : Nat := g.count_active_players with hndef
  have hcd : Game.create_deck { g with players := ps1 }
      = { g with players := ps1, deck := some (mkDeck n), discard := some [] } := by
    unfold Game.create_deck
    have hcnt' : ({ g with players := ps1 } : Game).count_active_players = n := hcnt1
    rw [hcnt']
  have hsdlen : (shuf (mkDeck n)).length = n * 5 := by
    rw [(hs (mkDeck n)).length_eq]
    exact mkDeck_length n hn
  have hvalid2 : ∀ i ∈ activeIdxs ps1, isPlayingAt ps1 i = true
      ∧ ((ps1.get? i).bind Player.game_data).isSome = true := by
    intro i hi
    refine ⟨(mem_activeIdxs ps1 i).mp hi, ?_⟩
    rw [hAI1] at hi
    exact (hassigned' i hi).1
  have hidxne : activeIdxs ps1 ≠ [] := by
    intro hcon
    rw [hAI1] at hcon
    rw [hcon] at hidxlen
    simp at hidxlen
    omega
  have hlendeck : (shuf (mkDeck n)).length = (activeIdxs ps1).length * 5 := by
    rw [hsdlen, hAI1, hidxlen]
  obtain ⟨ps2, hloop2, hhand2, hout2⟩ :=
    dealLoop_ok 5 ((shuf (mkDeck n)).length + 1) (activeIdxs ps1) ps1 (shuf (mkDeck n))
      hidxne (by rw [hAI1]; exact activeIdxs_nodup g.players) hvalid2 hlendeck
      (by rw [hsdlen]; omega)
  have hshape2 : SameShape ps1 ps2 := by
    have h := (dealLoop_shape ((shuf (mkDeck n)).length + 1) (activeIdxs ps1) ps1
      (shuf (mkDeck n))).1
    rw [hloop2] at h
    exact h
  have hms2 : handsMS ps2 = handsMS ps1 + ↑((shuf (mkDeck n)).map Card.kind) := by
    have h := (dealLoop_shape ((shuf (mkDeck n)).length + 1) (activeIdxs ps1) ps1
      (shuf (mkDeck n))).2 hvalid2
    rw [hloop2] at h
    simpa using h
  have hdeal : Game.deal_cards { g with players := ps1, deck := some (mkDeck n), discard := some [] } shuf
      = ({ g with players := ps2, deck := some [], discard := some [] }, none) := by
    unfold Game.deal_cards
    dsimp only
    rw [hloop2]
  have hAI2 : activeIdxs ps2 = activeIdxs g.players := by
    rw [hshape2.activeIdxs_eq, hAI1]
  have hfisome : ∃ i0, (activeIdxs ps2).get? fi = some i0 := by
    cases hq : (activeIdxs ps2).get? fi with
    | none =>
      have := List.get?_eq_none.mp hq
      rw [hAI2, hidxlen] at this
      omega
    | some i0 => exact ⟨i0, rfl⟩
  obtain ⟨i0, hi0⟩ := hfisome
  have hi0mem : i0 ∈ activeIdxs ps2 := List.get?_mem hi0
  have hi0memg : i0 ∈ activeIdxs g.players := by rwa [hAI2] at hi0mem
  have hi0lt : i0 < ps2.length := by
    apply activeIdxs_lt
    exact hi0mem
  have hq2some : ∃ q, ps2.get? i0 = some q := by
    cases hq : ps2.get? i0 with
    | none => exact absurd hq (by simp [List.get?_eq_none]; omega)
    | some q => exact ⟨q, rfl⟩
  obtain ⟨q, hq⟩ := hq2some
  have hqdata : q.game_data.isSome := by
    have h2 := hshape2.dataSome_eq i0
    rw [hq] at h2
    have h1 := (hassigned' i0 hi0memg).1
    rw [h1] at h2
    simpa using h2
  obtain ⟨dq, hdq⟩ := Option.isSome_iff_exists.mp hqdata
  set q' : Player := { q with game_data := some { dq with has_flashlight := !dq.has_flashlight } } with hqdef
  have htog : toggleFlashlightAt ps2 i0 = (ps2.set i0 q', none) := by
    simp only [toggleFlashlightAt, Player.toggle_flashlight, hq, hdq, hqdef]
  set ps4 : List Player := ps2.set i0 q' with hps4def
  have hcore4 : SameCore ps2 ps4 := by
    rw [hps4def]
    exact ⟨statusVec_set_same ps2 i0 q q' hq (by rw [hqdef]),
      dataSomeVec_set_same ps2 i0 q q' hq (by rw [hqdef, hdq]; rfl)⟩
  have hms4 : handsMS ps4 = handsMS ps2 := by
    rw [hps4def]
    apply handsMS_set_same ps2 i0 q q' hq
    rw [hqdef]
    unfold Player.handKinds
    rw [hdq]
    rfl
  set gF : Game := { g with players := ps4, deck := some [], discard := some [], game_status := GStatus.Ongoing, round_counter := some 1, phase := some Phase.Claims, turn := some 1 } with hgFdef
  have hstep : Game.start_game g roles fi shuf = (gF, none) := by
    unfold Game.start_game
    rw [if_neg (by rw [hst]; simp)]
    simp only [hloop1, hcd, hdeal, hi0, htog]
  rw [hstep]
  have hAI4 : activeIdxs ps4 = activeIdxs g.players := by
    rw [activeIdxs_eq_of_statusVec ps4 ps2 hcore4.1, hAI2]
  have hdata4 : ∀ i ∈ activeIdxs g.players,
      ((ps4.get? i).bind Player.game_data).isSome = true := by
    intro i hi
    rw [hcore4.dataSomeEq i, hshape2.dataSome_eq i]
    exact (hassigned' i hi).1
  have hgFplayers : gF.players = ps4 := by rw [hgFdef]
  refine ⟨rfl, by rw [hgFdef], ?_, ?_, ?_, by rw [hgFdef], by rw [hgFdef], ?_,
    by rw [hgFdef], by rw [hgFdef]⟩
  · show ps4.countP _ = n
    rw [hcore4.countActive, hshape2.count_active]
    exact hcnt1
  · refine ⟨by rw [hgFdef]; simp, by rw [hgFdef]; simp, ?_⟩
    show ActiveData gF.players
    rw [hgFplayers]
    intro i hi
    rw [hAI4] at hi
    exact hdata4 i hi
  · show gF.poolMS = ↑((mkDeck n).map Card.kind)
    have hdeckF : gF.deck = some [] := by rw [hgFdef]
    have hdiscF : gF.discard = some [] := by rw [hgFdef]
    unfold Game.poolMS
    rw [hgFplayers, hdeckF, hdiscF]
    have hms1zero : handsMS ps1 = 0 := by
      apply handsMS_zero_of_empty_hands
      intro i hi
      rw [hAI1] at hi
      exact (hassigned' i hi).2
    have hperm : (↑((shuf (mkDeck n)).map Card.kind) : Multiset CardKind)
        = ↑((mkDeck n).map Card.kind) :=
      Multiset.coe_eq_coe.mpr (List.Perm.map Card.kind (hs (mkDeck n)))
    rw [hms4, hms2, hms1zero, hperm]
    simp
  · intro i hi
    rw [hgFplayers] at hi ⊢
    rw [hAI4] at hi
    have hi1 : i ∈ activeIdxs ps1 := by rwa [hAI1]
    have h5 : handLen ps2 i = 5 := by
      rw [hhand2 i hi1, (hassigned' i hi).2]
    by_cases hii0 : i = i0
    · subst hii0
      rw [hps4def]
      rw [handLen_set_eq ps2 i q' hi0lt]
      have hlq : handLen ps2 i = dq.cards.length := by
        unfold handLen
        rw [hq]
        simp [hdq]
      rw [hqdef]
      simp
      omega
    · rw [hps4def, handLen_set_ne ps2 i0 i q' (fun hcon => hii0 hcon.symm)]
      exact h5

/-!  The flashlight invariant across every public operation. -/

theorem start_game_FlashInv (g : Game) (roles : List String) (fi : Nat)
    (shuf : List Card → List Card) (hinv : FlashInv g) :
    FlashInv (Game.start_game g roles fi shuf).1 := by
  by_cases hst : g.game_status = GStatus.Unstarted
  · have hzero : flashCount g.players = 0 := hinv.1 hst
    rcases hloop1 : assignRolesLoop (activeIdxs g.players) roles g.players with ⟨ps1, rerr⟩
    have hflps1 : flashCount ps1 = 0 := by
      have hle := assignRolesLoop_flash_le (activeIdxs g.players) roles g.players
      rw [hloop1] at hle
      dsimp only at hle
      omega
    unfold Game.start_game
    rw [if_neg (by rw [hst]; simp)]
    simp only [hloop1]
    cases rerr with
    | some e =>
      refine ⟨fun _ => ?_, ?_⟩
      · show flashCount ps1 = 0
        exact hflps1
      · show flashCount ps1 ≤ 1
        omega
    | none =>
      have hcdps : (Game.create_deck { g with players := ps1 }).players = ps1 := rfl
      have hcdst : (Game.create_deck { g with players := ps1 }).game_status
          = g.game_status := rfl
      have hshape := deal_cards_shape (Game.create_deck { g with players := ps1 }) shuf
      rcases hdl : Game.deal_cards (Game.create_deck { g with players := ps1 }) shuf
        with ⟨g3, derr⟩
      rw [hdl] at hshape
      have hfl3 : flashCount g3.players = 0 := by
        have h := hshape.1.flashCount_eq
        rw [hcdps] at h
        dsimp only at h
        rw [h]
        exact hflps1
      have hst3 : g3.game_status = g.game_status := by
        have h := hshape.2.2.1
        rw [hcdst] at h
        exact h
      cases derr with
      | some e =>
        simp only [hdl]
        exact ⟨fun _ => hfl3, by omega⟩
      | none =>
        cases hgfi : (activeIdxs g3.players).get? fi with
        | none =>
          simp only [hdl, hgfi]
          exact ⟨fun _ => hfl3, by omega⟩
        | some i0 =>
          have htgc := toggleFlashlightAt_flashCount g3.players i0
          rcases htg : toggleFlashlightAt g3.players i0 with ⟨ps4, terr⟩
          rw [htg] at htgc
          dsimp only at htgc
          cases terr with
          | some e =>
            simp only [hdl, hgfi, htg]
            exact ⟨fun _ => hfl3, by omega⟩
          | none =>
            simp only [hdl, hgfi, htg]
            refine ⟨fun hcon => ?_, ?_⟩
            · exact absurd hcon (by simp)
            · show flashCount ps4 ≤ 1
              omega
  · unfold Game.start_game
    rw [if_pos hst]
    exact hinv

theorem set_claim_FlashInv (g : Game) (idx blank elder cthulhu : Nat)
    (shuf : List Card → List Card) (hinv : FlashInv g) :
    FlashInv (Game.set_claim g idx blank elder cthulhu shuf).1 := by
  have hf := game_set_claim_facts g idx blank elder cthulhu shuf
  constructor
  · intro hcon
    rw [hf.2.1] at hcon
    rw [hf.1.flashCount_eq]
    exact hinv.1 hcon
  · rw [hf.1.flashCount_eq]
    exact hinv.2

theorem investigate_FlashInv (g : Game) (u t : Nat) (pos : Option Nat)
    (shuf : List Card → List Card) (hinv : FlashInv g) :
    FlashInv (Game.investigate g u t pos shuf).1 := by
  have hf := game_investigate_facts g u t pos shuf
  refine ⟨fun hcon => ?_, hf.2.2.1 hinv.2⟩
  rw [hf.2.1] at hcon
  have h0 := hinv.1 hcon
  have h1 := hf.2.2.1 hinv.2
  by_cases hflu : ∃ pu, g.players.get? u = some pu ∧ pu.flash = true
  · obtain ⟨pu, hpu, hpuf⟩ := hflu
    have : 0 < flashCount g.players := by
      apply List.countP_pos_iff.mpr
      exact ⟨pu, List.get?_mem hpu, hpuf⟩
    omega
  · have hstep : (Game.investigate g u t pos shuf).1 = g := by
      cases hpu : g.players.get? u with
      | none => simp only [Game.investigate, hpu]
      | some pu =>
        cases hdu : pu.game_data with
        | none => simp only [Game.investigate, hpu, hdu]
        | some du =>
          have hduf : ¬ du.has_flashlight = true := by
            intro hcon2
            apply hflu
            refine ⟨pu, hpu, ?_⟩
            unfold Player.flash
            rw [hdu]
            exact hcon2
          simp only [Game.investigate, hpu, hdu, if_pos hduf]
    rw [hstep]
    exact h0

theorem add_player_FlashInv (g : Game) (pid : Nat) (is_playing : Bool)
    (hinv : FlashInv g) : FlashInv (Game.add_player g pid is_playing).1 := by
  have hf := game_add_player_facts g pid is_playing
  constructor
  · intro hcon
    rw [hf.1] at hcon
    rw [hf.2.1]
    exact hinv.1 hcon
  · rw [hf.2.1]
    exact hinv.2

theorem remove_player_FlashInv (g : Game) (idx : Nat) (hinv : FlashInv g) :
    FlashInv (Game.remove_player g idx).1 := by
  have hf := game_remove_player_facts g idx
  constructor
  · intro hcon
    rw [hf.1] at hcon
    have := hinv.1 hcon
    omega
  · have := hinv.2
    omega

theorem end_game_FlashInv (g : Game) (hinv : FlashInv g) :
    FlashInv (Game.end_game g) := by
  refine ⟨fun hcon => ?_, hinv.2⟩
  exact absurd hcon (by unfold Game.end_game; simp)

theorem Step_FlashInv {g g' : Game} (hstep : Step g g') (hinv : FlashInv g) :
    FlashInv g' := by
  cases hstep with
  | add_player pid isP => exact add_player_FlashInv g pid isP hinv
  | remove_player idx h => exact remove_player_FlashInv g idx hinv
  | start_game roles fi shuf hs => exact start_game_FlashInv g roles fi shuf hinv
  | set_claim idx b e c shuf hs h => exact set_claim_FlashInv g idx b e c shuf hinv
  | investigate u t pos shuf hs hu ht => exact investigate_FlashInv g u t pos shuf hinv
  | end_game => exact end_game_FlashInv g hinv

theorem Reachable_FlashInv (g : Game) (h : Reachable g) : FlashInv g := by
  unfold Reachable at h
  induction h with
  | refl => exact ⟨fun _ => rfl, by unfold flashCount Game.init; simp⟩
  | tail hsteps hstep ih => exact Step_FlashInv hstep ih

/-!  Helpers for the claim theorems: the identity shuffle, monotonicity of the
active flashlight count, success of the fallback flip, conservation of the
pool along remove_player-free runs, and reachability of the concrete states. -/

theorem isShuffler_id : IsShuffler id := fun l => List.Perm.refl l

theorem activeFlashCount_le (g : Game) :
    g.activeFlashCount ≤ flashCount g.players := by
  unfold Game.activeFlashCount flashCount
  apply List.countP_mono_left
  intro a _ h
  exact (Bool.and_eq_true _ _ |>.mp h).2

theorem flipFirst_some_of_facedown : ∀ (cards : List Card),
    (∃ c ∈ cards, c.is_flipped = false) → ∃ cs, flipFirst cards = some cs := by
  intro cards
  induction cards with
  | nil => rintro ⟨c, hc, -⟩; cases hc
  | cons a tl ih =>
    rintro ⟨c, hc, hcf⟩
    by_cases ha : a.is_flipped = true
    · rcases List.mem_cons.mp hc with rfl | hctl
      · rw [hcf] at ha; cases ha
      · obtain ⟨cs, hcs⟩ := ih ⟨c, hctl, hcf⟩
        exact ⟨a :: cs, by simp [flipFirst, ha, hcs]⟩
    · exact ⟨Card.flip_up a :: tl, by simp [flipFirst, ha]⟩

theorem stepNR_PoolPres {g g' : Game} (h : StepNR g g')
    (hst : g.game_status ≠ GStatus.Unstarted) (hgood : g.Good) : PoolPres g g' := by
  cases h with
  | add_player pid isP =>
    have hf := game_add_player_facts g pid isP
    obtain ⟨hpool, hcnt, hgood'⟩ := hf.2.2 hst
    exact ⟨hpool, hcnt, by rw [hf.1]; exact hst, hgood' hgood⟩
  | set_claim idx b e c shuf hs hlt =>
    have hf := game_set_claim_facts g idx b e c shuf
    obtain ⟨hpool, hgood'⟩ := hf.2.2 hgood hs
    exact ⟨hpool, hf.1.count_active, by rw [hf.2.1]; exact hst, hgood'⟩
  | investigate u t pos shuf hs hu ht =>
    have hf := game_investigate_facts g u t pos shuf
    obtain ⟨hpool, hgood'⟩ := hf.2.2.2 hgood hs
    exact ⟨hpool, hf.1.countActive, by rw [hf.2.1]; exact hst, hgood'⟩
  | end_game =>
    exact ⟨rfl, rfl, by unfold Game.end_game; simp, hgood⟩

theorem stepsNR_PoolPres {g g' : Game} (h : Relation.ReflTransGen StepNR g g')
    (hst : g.game_status ≠ GStatus.Unstarted) (hgood : g.Good) :
    g'.poolMS = g.poolMS ∧ g'.count_active_players = g.count_active_players
      ∧ g'.game_status ≠ GStatus.Unstarted ∧ g'.Good := by
  induction h with
  | refl => exact ⟨rfl, rfl, hst, hgood⟩
  | tail hab hbc ih =>
    obtain ⟨hp, hc, hs2, hg2⟩ := ih
    obtain ⟨hp2, hc2, hs3, hg3⟩ := stepNR_PoolPres hbc hs2 hg2
    exact ⟨hp2.trans hp, hc2.trans hc, hs3, hg3⟩

theorem reach_exG0 : Reachable exG0 :=
  Relation.ReflTransGen.tail
    (Relation.ReflTransGen.tail
      (Relation.ReflTransGen.tail Relation.ReflTransGen.refl
        (Step.add_player Game.init 10 true))
      (Step.add_player (Game.add_player Game.init 10 true).1 11 true))
    (Step.add_player (Game.add_player ((Game.add_player Game.init 10 true).1) 11 true).1 12 true)

theorem reach_exStart : Reachable exStart :=
  Relation.ReflTransGen.tail reach_exG0
    (Step.start_game exG0 exRoles 0 id isShuffler_id)

theorem reach_exClaim3 : Reachable exClaim3 :=
  Relation.ReflTransGen.tail
    (Relation.ReflTransGen.tail
      (Relation.ReflTransGen.tail reach_exStart
        (Step.set_claim exStart 0 5 0 0 id isShuffler_id (by decide)))
      (Step.set_claim exClaim1 1 5 0 0 id isShuffler_id (by decide)))
    (Step.set_claim exClaim2 2 5 0 0 id isShuffler_id (by decide))

theorem reach_exInv3 : Reachable exInv3 :=
  Relation.ReflTransGen.tail
    (Relation.ReflTransGen.tail
      (Relation.ReflTransGen.tail reach_exClaim3
        (Step.investigate exClaim3 0 1 none id isShuffler_id (by decide) (by decide)))
      (Step.investigate exInv1 1 2 none id isShuffler_id (by decide) (by decide)))
    (Step.investigate exInv2 2 0 none id isShuffler_id (by decide) (by decide))

theorem reach_exInvB2 : Reachable exInvB2 :=
  Relation.ReflTransGen.tail
    (Relation.ReflTransGen.tail
      (Relation.ReflTransGen.tail
        (Relation.ReflTransGen.tail
          (Relation.ReflTransGen.tail
            (Relation.ReflTransGen.tail reach_exG0
              (Step.start_game exG0 exRoles 1 id isShuffler_id))
            (Step.set_claim exStartB 0 5 0 0 id isShuffler_id (by decide)))
          (Step.set_claim exClaimB1 1 5 0 0 id isShuffler_id (by decide)))
        (Step.set_claim exClaimB2 2 5 0 0 id isShuffler_id (by decide)))
      (Step.investigate exClaimB3 1 1 none id isShuffler_id (by decide) (by decide)))
    (Step.investigate exInvB1 1 1 none id isShuffler_id (by decide) (by decide))

/-!  The claim theorems. -/

/-- Claim C1: the specification says a face-up Cthulhu card makes the winner
Cultist with precedence over the Elder-Sign threshold in the same evaluation
pass.  The code contradicts this: in exWinGame a face-up Cthulhu card is
present among the active hands, the face-up Elder Signs also reach the
active-player count in the same pass, and check_winner reports Investigator,
because the sign-threshold assignment runs after the scan and overwrites the
Cultist verdict. -/
theorem claim_C1 :
    (∃ h ∈ (activeHandsOpt exWinGame.players).getD [], ∃ c ∈ h,
        c.kind = CardKind.Cthulhu ∧ c.is_flipped = true)
      ∧ ((activeHandsOpt exWinGame.players).getD []).flatten.countP
          (fun c => c.is_flipped && c.kind == CardKind.ElderSign)
          = Game.count_active_players exWinGame
      ∧ (Game.check_winner exWinGame).2 = none
      ∧ (Game.check_winner exWinGame).1.winner = some Team.Investigator := by
  decide

/-- Claim C2: the specification requires every failed investigate call to
leave the Game state unchanged.  The code contradicts this: in the reachable
state exStart the user at index 0 holds the flashlight and every card is face
down, so investigating position 1 of player 1 raises, yet the failed call has
already cleared the user's flashlight, so the state after the call differs
from the state before it. -/
theorem claim_C2 :
    Reachable exStart
      ∧ (Game.investigate exStart 0 1 (some 1) id).2.isSome = true
      ∧ flashVec (Game.investigate exStart 0 1 (some 1) id).1.players
          ≠ flashVec exStart.players
      ∧ (Game.investigate exStart 0 1 (some 1) id).1 ≠ exStart :=
  ⟨reach_exStart, by decide, by decide, by decide⟩

/-- Claim C3: the specification says revealCard(position) flips a face-down
card at that position and fails with "already revealed" when that card is
already face-up.  The code contradicts this on both sides of a concrete hand:
with the card at position 1 face down, reveal_card raises "No card to flip!"
and flips nothing; with the card at position 1 already face up, reveal_card
succeeds without any error. -/
theorem claim_C3 :
    (Player.reveal_card exHandDown (some 1)).2 = some "No card to flip!"
      ∧ (Player.reveal_card exHandDown (some 1)).1 = exHandDown
      ∧ (Player.reveal_card exHandUp (some 1)).2 = none
      ∧ ((exHandUp.game_data.map PlayerGameData.cards).getD []).get? 1
          = some { kind := CardKind.Blank, is_flipped := true } := by
  decide

/-- Claim C4 (amended): along every run that starts with a successful
start_game and afterwards uses the public operations other than remove_player,
the card pool is conserved: deck plus discard plus all active hands always
hold exactly 5 times the active-player count fixed at start, the active-player
count itself is constant, and the pool's kind multiset never changes. -/
theorem claim_C4 (g0 : Game) (roles : List String) (fi : Nat)
    (shuf : List Card → List Card) (g : Game)
    (hst : g0.game_status = GStatus.Unstarted) (hs : IsShuffler shuf)
    (hn : 1 ≤ g0.count_active_players)
    (hroles : g0.count_active_players ≤ roles.length)
    (hfi : fi < g0.count_active_players)
    (hreach : Relation.ReflTransGen StepNR (Game.start_game g0 roles fi shuf).1 g) :
    g.cardTotal = 5 * g0.count_active_players
      ∧ g.count_active_players = g0.count_active_players
      ∧ g.poolMS = ↑((mkDeck g0.count_active_players).map Card.kind) := by
  have H := start_game_ok g0 roles fi shuf hst hs hn hroles hfi
  have hst1 : (Game.start_game g0 roles fi shuf).1.game_status ≠ GStatus.Unstarted := by
    rw [H.2.1]; simp
  obtain ⟨hp, hc, -, -⟩ := stepsNR_PoolPres hreach hst1 H.2.2.2.1
  have hpool : g.poolMS = ↑((mkDeck g0.count_active_players).map Card.kind) :=
    hp.trans H.2.2.2.2.1
  refine ⟨?_, hc.trans H.2.2.1, hpool⟩
  rw [cardTotal_eq, hpool, Multiset.coe_card, List.length_map,
    mkDeck_length _ hn, Nat.mul_comm]

theorem claim_C4_witness :
    Game.cardTotal exStart = 5 * Game.count_active_players exG0
      ∧ Game.count_active_players exStart = Game.count_active_players exG0
      ∧ Game.poolMS exStart
          = ↑((mkDeck (Game.count_active_players exG0)).map Card.kind) :=
  claim_C4 exG0 exRoles 0 id exStart (by decide) isShuffler_id (by decide)
    (by decide) (by decide) Relation.ReflTransGen.refl

/-- Claim C4, counterexample to the unamended statement: remove_player deletes
the removed player's whole hand from the pool, so in the reachable state
exRemoved the pool holds 11 cards while 5 times the active-player count
is 10. -/
theorem claim_C4_cex :
    Reachable exRemoved
      ∧ Game.cardTotal exRemoved = 11
      ∧ 5 * Game.count_active_players exRemoved = 10 :=
  ⟨Relation.ReflTransGen.tail reach_exInv3 (Step.remove_player exInv3 1 (by decide)),
    by decide, by decide⟩

/-- Claim C5 (amended): at start_game the freshly built deck holds exactly 5
cards per active player, an exact multiple of the active-player count, so that
deal consumes the deck completely without error and every active player
receives exactly 5 cards.  At new_round redeals the exactness can fail, see
the counterexample. -/
theorem claim_C5 (g : Game) (roles : List String) (fi : Nat)
    (shuf : List Card → List Card)
    (hst : g.game_status = GStatus.Unstarted) (hs : IsShuffler shuf)
    (hn : 1 ≤ g.count_active_players)
    (hroles : g.count_active_players ≤ roles.length)
    (hfi : fi < g.count_active_players) :
    ((Game.create_deck g).deck.getD []).length = g.count_active_players * 5
      ∧ (Game.start_game g roles fi shuf).2 = none
      ∧ (Game.start_game g roles fi shuf).1.deck = some []
      ∧ ∀ i ∈ activeIdxs (Game.start_game g roles fi shuf).1.players,
          handLen (Game.start_game g roles fi shuf).1.players i = 5 := by
  have H := start_game_ok g roles fi shuf hst hs hn hroles hfi
  refine ⟨?_, H.1, H.2.2.2.2.2.1, H.2.2.2.2.2.2.2.1⟩
  show (mkDeck g.count_active_players).length = _
  exact mkDeck_length _ hn

theorem claim_C5_witness :
    ((Game.create_deck exG0).deck.getD []).length
        = Game.count_active_players exG0 * 5
      ∧ (Game.start_game exG0 exRoles 0 id).2 = none
      ∧ (Game.start_game exG0 exRoles 0 id).1.deck = some []
      ∧ ∀ i ∈ activeIdxs (Game.start_game exG0 exRoles 0 id).1.players,
          handLen (Game.start_game exG0 exRoles 0 id).1.players i = 5 :=
  claim_C5 exG0 exRoles 0 id (by decide) isShuffler_id (by decide) (by decide)
    (by decide)

/-- Claim C5, counterexample to the unamended statement: in the reachable
state exInvB2 a round ends with only two cards face up, so new_round
recollects a 13-card deck for 3 active players; the redeal dies with an
IndexError on the empty deck and leaves the hands unequal at 5, 4 and 4. -/
theorem claim_C5_cex :
    Reachable exInvB2
      ∧ exInvB3R.2 = some "IndexError: pop from empty list"
      ∧ handLen exInvB3R.1.players 0 = 5
      ∧ handLen exInvB3R.1.players 1 = 4 :=
  ⟨reach_exInvB2, by decide, by decide, by decide⟩

/-- Claim C6: in every reachable state whose status is Ongoing, at most one
active player holds the flashlight; the underlying invariant (at most one
player of any standing holds it) is preserved by every public operation,
including investigate. -/
theorem claim_C6 (g : Game) (hreach : Reachable g)
    (hst : g.game_status = GStatus.Ongoing) : g.activeFlashCount ≤ 1 := by
  have hinv := Reachable_FlashInv g hreach
  exact le_trans (activeFlashCount_le g) hinv.2

theorem claim_C6_witness : Game.activeFlashCount exStart ≤ 1 :=
  claim_C6 exStart reach_exStart (by decide)

/-- Claim C7 (amended): create_deck performs no player-count validation and
cannot raise: for every state with at least one active player, inside or
outside the 3..10 range, it builds a deck of exactly 5 cards per active player
and resets the discard pile. -/
theorem claim_C7 (g : Game) (hn : 1 ≤ g.count_active_players) :
    ((Game.create_deck g).deck.getD []).length = 5 * g.count_active_players
      ∧ (Game.create_deck g).discard = some [] := by
  constructor
  · show (mkDeck g.count_active_players).length = _
    rw [mkDeck_length _ hn, Nat.mul_comm]
  · rfl

theorem claim_C7_witness :
    ((Game.create_deck exG2).deck.getD []).length
        = 5 * Game.count_active_players exG2
      ∧ (Game.create_deck exG2).discard = some [] :=
  claim_C7 exG2 (by decide)

/-- Claim C7, counterexample to the unamended statement: with only two active
players, a count outside the documented 3..10 range, create_deck raises no
ConfigurationError (its result carries no error at all) and builds a ten-card
deck. -/
theorem claim_C7_cex :
    Game.count_active_players exG2 = 2
      ∧ (Game.create_deck exG2).deck = some (mkDeck 2)
      ∧ (mkDeck 2).length = 10 := by
  decide

/-- Claim C8: with exactly 5 active players, start_game succeeds; the deck it
builds holds exactly 25 cards, 1 Cthulhu, 5 Elder Signs and 19 Blanks; the
whole deck becomes the card pool; and after dealing every active player holds
exactly 5 cards. -/
theorem claim_C8 (g : Game) (roles : List String) (fi : Nat)
    (shuf : List Card → List Card)
    (hst : g.game_status = GStatus.Unstarted) (hs : IsShuffler shuf)
    (hcnt : g.count_active_players = 5)
    (hroles : 5 ≤ roles.length) (hfi : fi < 5) :
    (Game.start_game g roles fi shuf).2 = none
      ∧ (mkDeck 5).length = 25
      ∧ (mkDeck 5).countP (fun c => c.kind == CardKind.Cthulhu) = 1
      ∧ (mkDeck 5).countP (fun c => c.kind == CardKind.ElderSign) = 5
      ∧ (mkDeck 5).countP (fun c => c.kind == CardKind.Blank) = 19
      ∧ (Game.start_game g roles fi shuf).1.poolMS = ↑((mkDeck 5).map Card.kind)
      ∧ ∀ i ∈ activeIdxs (Game.start_game g roles fi shuf).1.players,
          handLen (Game.start_game g roles fi shuf).1.players i = 5 := by
  have H := start_game_ok g roles fi shuf hst hs (by omega) (by omega) (by omega)
  refine ⟨H.1, by decide, by decide, by decide, by decide, ?_,
    H.2.2.2.2.2.2.2.1⟩
  have hpool := H.2.2.2.2.1
  rw [hcnt] at hpool
  exact hpool

theorem claim_C8_witness :
    (Game.start_game exG5 exRoles5 0 id).2 = none
      ∧ (mkDeck 5).length = 25
      ∧ (mkDeck 5).countP (fun c => c.kind == CardKind.Cthulhu) = 1
      ∧ (mkDeck 5).countP (fun c => c.kind == CardKind.ElderSign) = 5
      ∧ (mkDeck 5).countP (fun c => c.kind == CardKind.Blank) = 19
      ∧ (Game.start_game exG5 exRoles5 0 id).1.poolMS = ↑((mkDeck 5).map Card.kind)
      ∧ ∀ i ∈ activeIdxs (Game.start_game exG5 exRoles5 0 id).1.players,
          handLen (Game.start_game exG5 exRoles5 0 id).1.players i = 5 :=
  claim_C8 exG5 exRoles5 0 id (by decide) isShuffler_id (by decide) (by decide)
    (by decide)

/-- Claim C9: new_round is a round-trip on the card pool: on every well-formed
state, for every permutation shuffle, the pool's kind multiset across deck,
discard and active hands, and with it the total card count, is exactly the
same after recollection and redeal as before. -/
theorem claim_C9 (g : Game) (shuf : List Card → List Card)
    (hgood : g.Good) (hs : IsShuffler shuf) :
    (Game.new_round g shuf).1.poolMS = g.poolMS
      ∧ (Game.new_round g shuf).1.cardTotal = g.cardTotal := by
  have hf := (new_round_facts g shuf).2.2 hgood hs
  refine ⟨hf.1, ?_⟩
  rw [cardTotal_eq, cardTotal_eq, hf.1]

theorem claim_C9_witness :
    (Game.new_round exStart id).1.poolMS = Game.poolMS exStart
      ∧ (Game.new_round exStart id).1.cardTotal = Game.cardTotal exStart :=
  claim_C9 exStart id (by decide) isShuffler_id

/-- Claim C10: Python's truthiness test treats position 0 like no position at
all: reveal_card with position 0 never takes the positional branch but behaves
exactly like the no-position call, and when the hand holds at least one
face-down card it therefore flips the first face-down card in hand order,
whatever the state of the card at index 0. -/
theorem claim_C10 (p : Player) (d : PlayerGameData) (hd : p.game_data = some d)
    (hfd : ∃ c ∈ d.cards, c.is_flipped = false) :
    Player.reveal_card p (some 0) = Player.reveal_card p none
      ∧ ∃ cs, flipFirst d.cards = some cs
          ∧ Player.reveal_card p (some 0)
              = ({ p with game_data := some { d with cards := cs } }, none) := by
  obtain ⟨cs, hcs⟩ := flipFirst_some_of_facedown d.cards hfd
  refine ⟨?_, cs, hcs, ?_⟩
  · simp only [Player.reveal_card, hd]
  · simp only [Player.reveal_card, hd, hcs]

theorem claim_C10_witness :
    Player.reveal_card exHandDown (some 0) = Player.reveal_card exHandDown none
      ∧ ∃ cs, flipFirst [mkCard CardKind.Blank, mkCard CardKind.Blank] = some cs
          ∧ Player.reveal_card exHandDown (some 0)
              = ({ exHandDown with game_data := some { role := "Investigator", cards := cs, can_claim := true, claim := none, has_flashlight := false } }, none) :=
  claim_C10 exHandDown
    { role := "Investigator", cards := [mkCard CardKind.Blank, mkCard CardKind.Blank], can_claim := true, claim := none, has_flashlight := false }
    rfl (by decide)
